import Mathlib

/-!
# Node bootstrap of `cmd/kava/cmd/app.go`

A shallow embedding of `appCreator.newApp`, `appCreator.appExport` and
`accAddressesFromBech32`.

The file under study is glue code: it reads an untyped configuration through the
`cast` coercions, calls into the SDK (pruning options, LevelDB, snapshot store,
bech32 decoding, gas-price parsing), and hands the resolved values to the runtime
constructor `app.NewApp`.  Everything that lives outside the file is a field of `Env`; the
three functions of the file are translated statement by statement on top of it.

Conventions.
* A Go function returning `(T, error)` is a function into `T × Option GoError`;
  `none` is the `nil` error.
* A Go slice is a `List`; the `nil` slice is `[]`.
* `panic(v)` ends the run with `Except.error v`.
* Go's `int`, `int64` are `Int`; `uint`, `uint32`, `uint64` are `Nat`.  The code
  performs no arithmetic on them.
-/

namespace Kava

/-! ## Values that cross the boundary of the file -/

/-- Go `error`, identified with the text that the verb `%v` prints for it. -/
abbrev GoError := String

/-- The dynamic value (`interface{}`) that `AppOptions.Get` returns.  `nil` is what
a lookup of an absent key yields. -/
inductive Value where
  | nil
  | bool (b : Bool)
  | int (n : Int)
  | str (s : String)
  | ints (l : List Int)
  | strs (l : List String)
  | other (desc : String)
  deriving DecidableEq, Repr

/-- Interface `servertypes.AppOptions`: lookup of a configuration value by key. -/
structure AppOptions where
  Get : String → Value

/-- Type `log.Logger`, an opaque handle. -/
structure Logger where
  name : String
  deriving DecidableEq, Repr

/-- Type `db.DB`, an opaque handle. -/
structure DB where
  name : String
  deriving DecidableEq, Repr

/-- Type `io.Writer`, an opaque handle. -/
structure Writer where
  name : String
  deriving DecidableEq, Repr

/-- Type `params.EncodingConfig`, an opaque value. -/
structure EncodingConfig where
  name : String
  deriving DecidableEq, Repr

/-- Type `storetypes.PruningOptions`, an opaque value. -/
structure PruningOptions where
  name : String
  deriving DecidableEq, Repr

/-- Type `*snapshots.Store`, an opaque handle. -/
structure SnapshotStore where
  name : String
  deriving DecidableEq, Repr

/-- Type `sdk.AccAddress`: a byte string. -/
abbrev AccAddress := List Nat

/-- Type `sdk.MultiStorePersistentCache`: either the `nil` interface value or the
manager that `store.NewCommitKVStoreCacheManager()` builds. -/
inductive MultiStorePersistentCache where
  | nil
  | commitKVStoreCacheManager
  deriving DecidableEq, Repr

/-- Type `servertypes.ExportedApp`, cut down to two of its fields; `app.go` only
mentions its zero value, in a statement that is never reached. -/
structure ExportedApp where
  AppState : List Nat
  Height : Int
  deriving DecidableEq, Repr

/-! ## `map[int64]bool` -/

/-- A Go `map[int64]bool` as an association list that holds each key once. -/
abbrev HeightMap := List (Int × Bool)

/-- The statement `m[k] = v`. -/
def HeightMap.set : HeightMap → Int → Bool → HeightMap
  | [], k, v => [(k, v)]
  | (k', v') :: rest, k, v =>
    if k' = k then (k, v) :: rest else (k', v') :: HeightMap.set rest k v

/-- The expression `m[k]`: the stored value, or `false` for a missing key. -/
def HeightMap.index : HeightMap → Int → Bool
  | [], _ => false
  | (k', v') :: rest, k => if k' = k then v' else HeightMap.index rest k

/-- The second result of `_, ok := m[k]`. -/
def HeightMap.has : HeightMap → Int → Bool
  | [], _ => false
  | (k', _) :: rest, k => if k' = k then true else HeightMap.has rest k

/-- The expression `len(m)`. -/
def HeightMap.len (m : HeightMap) : Nat := m.length

/-- The conversion `int64(h)` of an `int`.  Go's `int` is at most 64 bits wide, so
the conversion keeps the value. -/
def int64 (h : Int) : Int := h

/-! ## The environment: everything `app.go` imports -/

/-- The value handed to `panic`. -/
inductive PanicValue where
  | err (e : GoError)
  | str (s : String)
  deriving DecidableEq, Repr

/-- The checked coercions of package `cast`, each returning a value and an error. -/
structure Cast where
  ToBoolE : Value → Bool × Option GoError
  ToStringE : Value → String × Option GoError
  ToUintE : Value → Nat × Option GoError
  ToUint32E : Value → Nat × Option GoError
  ToUint64E : Value → Nat × Option GoError
  ToIntSliceE : Value → List Int × Option GoError
  ToStringSliceE : Value → List String × Option GoError

/-- Function `cast.ToBool`: the value of `ToBoolE`, the error dropped. -/
def Cast.ToBool (c : Cast) (i : Value) : Bool := (c.ToBoolE i).1

/-- Function `cast.ToString`: the value of `ToStringE`, the error dropped. -/
def Cast.ToString (c : Cast) (i : Value) : String := (c.ToStringE i).1

/-- Function `cast.ToUint`: the value of `ToUintE`, the error dropped. -/
def Cast.ToUint (c : Cast) (i : Value) : Nat := (c.ToUintE i).1

/-- Function `cast.ToUint32`: the value of `ToUint32E`, the error dropped. -/
def Cast.ToUint32 (c : Cast) (i : Value) : Nat := (c.ToUint32E i).1

/-- Function `cast.ToUint64`: the value of `ToUint64E`, the error dropped. -/
def Cast.ToUint64 (c : Cast) (i : Value) : Nat := (c.ToUint64E i).1

/-- Function `cast.ToIntSlice`: the value of `ToIntSliceE`, the error dropped. -/
def Cast.ToIntSlice (c : Cast) (i : Value) : List Int := (c.ToIntSliceE i).1

/-- Function `cast.ToStringSlice`: the value of `ToStringSliceE`, the error dropped. -/
def Cast.ToStringSlice (c : Cast) (i : Value) : List String := (c.ToStringSliceE i).1

/-- The configuration keys that `app.go` takes from packages `server` and `flags`. -/
structure Flags where
  FlagInterBlockCache : String
  FlagUnsafeSkipUpgrades : String
  FlagHome : String
  FlagInvCheckPeriod : String
  FlagMinGasPrices : String
  FlagHaltHeight : String
  FlagHaltTime : String
  FlagMinRetainBlocks : String
  FlagTrace : String
  FlagIndexEvents : String
  FlagStateSyncSnapshotInterval : String
  FlagStateSyncSnapshotKeepRecent : String

/-- The collaborators of `app.go`. -/
structure Env where
  /-- package `cast` -/
  cast : Cast
  /-- key constants of packages `server` and `flags` -/
  flags : Flags
  /-- function `filepath.Join` -/
  Join : List String → String
  /-- function `server.GetPruningOptionsFromFlags` -/
  GetPruningOptionsFromFlags : AppOptions → PruningOptions × Option GoError
  /-- function `sdk.NewLevelDB` -/
  NewLevelDB : String → String → DB × Option GoError
  /-- function `snapshots.NewStore` -/
  NewStore : DB → String → SnapshotStore × Option GoError
  /-- function `sdk.AccAddressFromBech32` -/
  AccAddressFromBech32 : String → AccAddress × Option GoError
  /-- function `baseapp.SetMinGasPrices`, which parses its argument before it returns
  the option: `some v` when the call panics with `v`, `none` when it returns -/
  SetMinGasPrices : String → Option PanicValue

/-! ## `app.go` -/

/-- Constant `flagMempoolEnableAuth`. -/
def flagMempoolEnableAuth : String := "mempool.enable-authentication"

/-- Constant `flagMempoolAuthAddresses`. -/
def flagMempoolAuthAddresses : String := "mempool.authorized-addresses"

/-- Type `appCreator`. -/
structure appCreator where
  encodingConfig : EncodingConfig
  deriving DecidableEq, Repr

/-- Type `app.Options`, the option set of the runtime constructor. -/
structure Options where
  SkipLoadLatest : Bool
  SkipUpgradeHeights : HeightMap
  InvariantCheckPeriod : Nat
  MempoolEnableAuth : Bool
  MempoolAuthAddresses : List AccAddress
  deriving DecidableEq, Repr

/-- The `baseapp` options that `newApp` builds, one constructor per setter, each
holding the argument of the setter.  The setters wrap their argument in a closure and
return; `SetMinGasPrices` alone does work first, see `Env.SetMinGasPrices`. -/
inductive BaseAppOption where
  | SetPruning (opts : PruningOptions)
  | SetMinGasPrices (gasPrices : String)
  | SetHaltHeight (blockHeight : Nat)
  | SetHaltTime (haltTime : Nat)
  | SetMinRetainBlocks (minRetainBlocks : Nat)
  | SetInterBlockCache (cache : MultiStorePersistentCache)
  | SetTrace (trace : Bool)
  | SetIndexEvents (ie : List String)
  | SetSnapshotStore (snapshotStore : SnapshotStore)
  | SetSnapshotInterval (interval : Nat)
  | SetSnapshotKeepRecent (keepRecent : Nat)
  deriving DecidableEq, Repr

/-- The argument list of the call `app.NewApp(...)`.  The application instance that
`newApp` returns is the runtime constructor applied to these arguments. -/
structure NewAppCall where
  logger : Logger
  db : DB
  traceStore : Writer
  encodingConfig : EncodingConfig
  options : Options
  baseAppOptions : List BaseAppOption
  deriving DecidableEq, Repr

/-- A call that touches the file system. -/
inductive Call where
  | NewLevelDB (name : String) (dir : String)
  | NewStore (db : DB) (dir : String)
  deriving DecidableEq, Repr

/-- What a run leaves behind: the store calls it made, in order, and either the
panic that ended it or the value it returned. -/
structure Outcome (α : Type) where
  calls : List Call
  result : Except PanicValue α

/-- The loop of `accAddressesFromBech32`: `addresses` is what is left to range over,
`decodedAddresses` the slice built so far. -/
def accAddressesFromBech32Loop (dec : String → AccAddress × Option GoError) :
    List String → List AccAddress → List AccAddress × Option GoError
  | [], decodedAddresses => (decodedAddresses, none)
  | s :: rest, decodedAddresses =>
    match dec s with
    | (_, some err) => ([], some err)
    | (a, none) => accAddressesFromBech32Loop dec rest (decodedAddresses ++ [a])

/-- Function `accAddressesFromBech32`, over the decoder `sdk.AccAddressFromBech32`. -/
def accAddressesFromBech32 (dec : String → AccAddress × Option GoError)
    (addresses : List String) : List AccAddress × Option GoError :=
  accAddressesFromBech32Loop dec addresses []

/-- The loop that fills `skipUpgradeHeights`. -/
def skipUpgradeHeightsLoop : List Int → HeightMap → HeightMap
  | [], skipUpgradeHeights => skipUpgradeHeights
  | h :: rest, skipUpgradeHeights =>
    skipUpgradeHeightsLoop rest (skipUpgradeHeights.set (int64 h) true)

/-- Method `appCreator.newApp`.  The arguments of the call `app.NewApp(...)` are
evaluated in the order written; among them only `baseapp.SetMinGasPrices(...)` can
panic, and the coercions around it have no effect, so the run is the same as if that
call came first. -/
def newApp (env : Env) (ac : appCreator) (logger : Logger) (db : DB) (traceStore : Writer)
    (appOpts : AppOptions) : Outcome NewAppCall :=
  let cache : MultiStorePersistentCache :=
    if env.cast.ToBool (appOpts.Get env.flags.FlagInterBlockCache) then
      MultiStorePersistentCache.commitKVStoreCacheManager
    else
      MultiStorePersistentCache.nil
  let skipUpgradeHeights : HeightMap :=
    skipUpgradeHeightsLoop
      (env.cast.ToIntSlice (appOpts.Get env.flags.FlagUnsafeSkipUpgrades)) []
  match env.GetPruningOptionsFromFlags appOpts with
  | (_, some err) => ⟨[], Except.error (PanicValue.err err)⟩
  | (pruningOpts, none) =>
    let snapshotDir : String :=
      env.Join [env.cast.ToString (appOpts.Get env.flags.FlagHome), "data", "snapshots"]
    match env.NewLevelDB "metadata" snapshotDir with
    | (_, some err) =>
      ⟨[Call.NewLevelDB "metadata" snapshotDir], Except.error (PanicValue.err err)⟩
    | (snapshotDB, none) =>
      match env.NewStore snapshotDB snapshotDir with
      | (_, some err) =>
        ⟨[Call.NewLevelDB "metadata" snapshotDir, Call.NewStore snapshotDB snapshotDir],
          Except.error (PanicValue.err err)⟩
      | (snapshotStore, none) =>
        let mempoolEnableAuth : Bool :=
          env.cast.ToBool (appOpts.Get flagMempoolEnableAuth)
        match accAddressesFromBech32 env.AccAddressFromBech32
            (env.cast.ToStringSlice (appOpts.Get flagMempoolAuthAddresses)) with
        | (_, some err) =>
          ⟨[Call.NewLevelDB "metadata" snapshotDir, Call.NewStore snapshotDB snapshotDir],
            Except.error
              (PanicValue.str ("could not get authorized address from config: " ++ err))⟩
        | (mempoolAuthAddresses, none) =>
          match env.SetMinGasPrices
              (env.cast.ToString (appOpts.Get env.flags.FlagMinGasPrices)) with
          | some v =>
            ⟨[Call.NewLevelDB "metadata" snapshotDir, Call.NewStore snapshotDB snapshotDir],
              Except.error v⟩
          | none =>
            ⟨[Call.NewLevelDB "metadata" snapshotDir, Call.NewStore snapshotDB snapshotDir],
              Except.ok
                { logger := logger
                  db := db
                  traceStore := traceStore
                  encodingConfig := ac.encodingConfig
                  options :=
                    { SkipLoadLatest := false
                      SkipUpgradeHeights := skipUpgradeHeights
                      InvariantCheckPeriod :=
                        env.cast.ToUint (appOpts.Get env.flags.FlagInvCheckPeriod)
                      MempoolEnableAuth := mempoolEnableAuth
                      MempoolAuthAddresses := mempoolAuthAddresses }
                  baseAppOptions :=
                    [ BaseAppOption.SetPruning pruningOpts,
                      BaseAppOption.SetMinGasPrices
                        (env.cast.ToString (appOpts.Get env.flags.FlagMinGasPrices)),
                      BaseAppOption.SetHaltHeight
                        (env.cast.ToUint64 (appOpts.Get env.flags.FlagHaltHeight)),
                      BaseAppOption.SetHaltTime
                        (env.cast.ToUint64 (appOpts.Get env.flags.FlagHaltTime)),
                      BaseAppOption.SetMinRetainBlocks
                        (env.cast.ToUint64 (appOpts.Get env.flags.FlagMinRetainBlocks)),
                      BaseAppOption.SetInterBlockCache cache,
                      BaseAppOption.SetTrace
                        (env.cast.ToBool (appOpts.Get env.flags.FlagTrace)),
                      BaseAppOption.SetIndexEvents
                        (env.cast.ToStringSlice (appOpts.Get env.flags.FlagIndexEvents)),
                      BaseAppOption.SetSnapshotStore snapshotStore,
                      BaseAppOption.SetSnapshotInterval
                        (env.cast.ToUint64
                          (appOpts.Get env.flags.FlagStateSyncSnapshotInterval)),
                      BaseAppOption.SetSnapshotKeepRecent
                        (env.cast.ToUint32
                          (appOpts.Get env.flags.FlagStateSyncSnapshotKeepRecent)) ] }⟩

/-- The keys that `newApp` itself looks up with `appOpts.Get`, in the order of the
lookups in the source.  What `server.GetPruningOptionsFromFlags` reads is not among
them. -/
def newAppKeys (env : Env) : List String :=
  [ env.flags.FlagInterBlockCache,
    env.flags.FlagUnsafeSkipUpgrades,
    env.flags.FlagHome,
    flagMempoolEnableAuth,
    flagMempoolAuthAddresses,
    env.flags.FlagInvCheckPeriod,
    env.flags.FlagMinGasPrices,
    env.flags.FlagHaltHeight,
    env.flags.FlagHaltTime,
    env.flags.FlagMinRetainBlocks,
    env.flags.FlagTrace,
    env.flags.FlagIndexEvents,
    env.flags.FlagStateSyncSnapshotInterval,
    env.flags.FlagStateSyncSnapshotKeepRecent ]

/-- Method `appCreator.appExport`: the body panics before its `return`. -/
def appExport (_ac : appCreator) (_logger : Logger) (_db : DB) (_traceStore : Writer)
    (_height : Int) (_forZeroHeight : Bool) (_jailAllowedAddrs : List String)
    (_appOpts : AppOptions) : Except PanicValue (ExportedApp × Option GoError) :=
  Except.error (PanicValue.str "TODO")

/-! ## Assumptions on package `cast`

`cast` is not part of the file; what the theorems need of it is stated here and
appears as a hypothesis wherever it is used. -/

/-- Assumption on `cast`: the value that a coercion returns for the `nil` value is
the zero value of the target type. -/
structure Cast.ZeroOnNil (c : Cast) : Prop where
  toBool : (c.ToBoolE Value.nil).1 = false
  toString : (c.ToStringE Value.nil).1 = ""
  toUint : (c.ToUintE Value.nil).1 = 0
  toUint32 : (c.ToUint32E Value.nil).1 = 0
  toUint64 : (c.ToUint64E Value.nil).1 = 0
  toIntSlice : (c.ToIntSliceE Value.nil).1 = []
  toStringSlice : (c.ToStringSliceE Value.nil).1 = []

/-- Assumption on `cast`: a checked coercion that reports an error returns the zero
value of the target type next to it. -/
structure Cast.ZeroOnError (c : Cast) : Prop where
  toBool : ∀ i, (c.ToBoolE i).2 ≠ none → (c.ToBoolE i).1 = false
  toString : ∀ i, (c.ToStringE i).2 ≠ none → (c.ToStringE i).1 = ""
  toUint : ∀ i, (c.ToUintE i).2 ≠ none → (c.ToUintE i).1 = 0
  toUint32 : ∀ i, (c.ToUint32E i).2 ≠ none → (c.ToUint32E i).1 = 0
  toUint64 : ∀ i, (c.ToUint64E i).2 ≠ none → (c.ToUint64E i).1 = 0
  toIntSlice : ∀ i, (c.ToIntSliceE i).2 ≠ none → (c.ToIntSliceE i).1 = []
  toStringSlice : ∀ i, (c.ToStringSliceE i).2 ≠ none → (c.ToStringSliceE i).1 = []

/-- Two configurations agree on every key other than `key`. -/
def AppOptions.AgreeExcept (key : String) (a b : AppOptions) : Prop :=
  ∀ k, k ≠ key → a.Get k = b.Get k

/-! ## A sample environment

Stand-ins for the collaborators, used to run the embedding on concrete
configurations.  Each follows its original on the inputs it is run on below; where a
stand-in is coarser than the original, its comment says so. -/

/-- Stand-in for `strconv.ParseBool`: the twelve spellings it accepts. -/
def sampleParseBool (s : String) : Bool × Option GoError :=
  if s ∈ ["1", "t", "T", "TRUE", "true", "True"] then (true, none)
  else if s ∈ ["0", "f", "F", "FALSE", "false", "False"] then (false, none)
  else (false, some ("strconv.ParseBool: parsing " ++ s.quote ++ ": invalid syntax"))

/-- Reads a non-empty run of decimal digits. -/
def sampleParseDigits (cs : List Char) : Option Nat :=
  if cs = [] then none
  else
    cs.foldl
      (fun acc c =>
        match acc with
        | some n => if c.isDigit then some (10 * n + (c.toNat - 48)) else none
        | none => none)
      (some 0)

/-- Stand-in for the unsigned coercions to a type of `bits` bits: `nil` is zero, a
boolean is 0 or 1, a non-negative integer is converted, a negative one is an error, a
string is parsed (decimal digits only, where the original also reads other bases),
every other value is an error. -/
def sampleToUintE (bits : Nat) : Value → Nat × Option GoError
  | Value.nil => (0, none)
  | Value.bool b => (if b then 1 else 0, none)
  | Value.int n =>
    if n < 0 then (0, some "unable to cast negative value") else (n.toNat % 2 ^ bits, none)
  | Value.str s =>
    match sampleParseDigits s.data with
    | some n => if n < 2 ^ bits then (n, none) else (0, some "unable to cast: out of range")
    | none => (0, some "unable to cast: invalid syntax")
  | _ => (0, some "unable to cast")

/-- Stand-in for package `cast` on the shapes of `Value`. -/
def sampleCast : Cast where
  ToBoolE := fun i =>
    match i with
    | Value.nil => (false, none)
    | Value.bool b => (b, none)
    | Value.int n => (decide (n ≠ 0), none)
    | Value.str s => sampleParseBool s
    | _ => (false, some "unable to cast to bool")
  ToStringE := fun i =>
    match i with
    | Value.nil => ("", none)
    | Value.str s => (s, none)
    | Value.bool b => (if b then "true" else "false", none)
    | Value.int n => (toString n, none)
    | _ => ("", some "unable to cast to string")
  ToUintE := sampleToUintE 64
  ToUint32E := sampleToUintE 32
  ToUint64E := sampleToUintE 64
  ToIntSliceE := fun i =>
    match i with
    | Value.ints l => (l, none)
    | _ => ([], some "unable to cast to []int")
  ToStringSliceE := fun i =>
    match i with
    | Value.strs l => (l, none)
    | Value.str s => ((s.split Char.isWhitespace).filter (fun w => w ≠ ""), none)
    | _ => ([], some "unable to cast to []string")

/-- The key names as the SDK spells them. -/
def sampleFlags : Flags where
  FlagInterBlockCache := "inter-block-cache"
  FlagUnsafeSkipUpgrades := "unsafe-skip-upgrades"
  FlagHome := "home"
  FlagInvCheckPeriod := "inv-check-period"
  FlagMinGasPrices := "minimum-gas-prices"
  FlagHaltHeight := "halt-height"
  FlagHaltTime := "halt-time"
  FlagMinRetainBlocks := "min-retain-blocks"
  FlagTrace := "trace"
  FlagIndexEvents := "index-events"
  FlagStateSyncSnapshotInterval := "state-sync.snapshot-interval"
  FlagStateSyncSnapshotKeepRecent := "state-sync.snapshot-keep-recent"

/-- Stand-in for `filepath.Join`: the non-empty elements, separated by a slash.  The
original also cleans the result, which changes nothing for the paths used below. -/
def sampleJoin (elem : List String) : String :=
  "/".intercalate (elem.filter (fun e => e ≠ ""))

/-- Stand-in for `server.GetPruningOptionsFromFlags`: the value of the key `pruning`
must name, in lower case, one of the strategies `default`, `nothing`, `everything`;
every other value, the empty string of an absent key among them, is an unknown
strategy.  The original lowers the case first and knows the strategy `custom`, for
which it reads further keys; neither is covered. -/
def sampleGetPruningOptionsFromFlags (appOpts : AppOptions) :
    PruningOptions × Option GoError :=
  if sampleCast.ToString (appOpts.Get "pruning") ∈ ["default", "nothing", "everything"] then
    (⟨sampleCast.ToString (appOpts.Get "pruning")⟩, none)
  else
    (⟨""⟩, some ("unknown pruning strategy " ++ sampleCast.ToString (appOpts.Get "pruning")))

/-- Stand-in for `baseapp.SetMinGasPrices`: the empty string and the price
`0.001ukava` parse; every other string is taken for one that is no coin expression,
on which the original panics. -/
def sampleSetMinGasPrices (gasPricesStr : String) : Option PanicValue :=
  if gasPricesStr = "" then none
  else if gasPricesStr = "0.001ukava" then none
  else
    some (PanicValue.str
      ("invalid minimum gas prices: invalid decimal coin expression: " ++ gasPricesStr))

/-- First sample address, the bech32 form of the bytes 1 to 20. -/
def addrA : String := "kava1qypqxpq9qcrsszg2pvxq6rs0zqg3yyc5rhcrsm"

/-- Second sample address, the bech32 form of the bytes 255 down to 236. -/
def addrB : String := "kava1lll0ml8mltul3alk7h608uh37rh7am0vnjygq5"

/-- The bytes of `addrA`. -/
def bytesA : AccAddress := [1, 2, 3, 4, 5, 6, 7, 8, 9, 10, 11, 12, 13, 14, 15, 16, 17, 18, 19, 20]

/-- The bytes of `addrB`. -/
def bytesB : AccAddress :=
  [255, 254, 253, 252, 251, 250, 249, 248, 247, 246, 245, 244, 243, 242, 241, 240, 239, 238,
    237, 236]

/-- Stand-in for `sdk.AccAddressFromBech32`: it knows `addrA` and `addrB`, rejects
the empty string, and rejects every other string the way the original rejects a
string without the separator `1`. -/
def sampleAccAddressFromBech32 (address : String) : AccAddress × Option GoError :=
  if address = addrA then (bytesA, none)
  else if address = addrB then (bytesB, none)
  else if address = "" then ([], some "empty address string is not allowed")
  else ([], some "decoding bech32 failed: invalid index of 1")

/-- The sample environment; both store constructors succeed. -/
def sampleEnv : Env where
  cast := sampleCast
  flags := sampleFlags
  Join := sampleJoin
  GetPruningOptionsFromFlags := sampleGetPruningOptionsFromFlags
  NewLevelDB := fun name dir => (⟨dir ++ "/" ++ name ++ ".db"⟩, none)
  NewStore := fun _ dir => (⟨dir⟩, none)
  AccAddressFromBech32 := sampleAccAddressFromBech32
  SetMinGasPrices := sampleSetMinGasPrices

/-- Sample receiver and arguments of `newApp`. -/
def sampleCreator : appCreator := ⟨⟨"amino+proto"⟩⟩

/-- Sample logger. -/
def sampleLogger : Logger := ⟨"stdout"⟩

/-- Sample application database. -/
def sampleDB : DB := ⟨"application.db"⟩

/-- Sample trace sink. -/
def sampleTrace : Writer := ⟨"trace.log"⟩

/-- The configuration in which every key is absent. -/
def absentOpts : AppOptions := ⟨fun _ => Value.nil⟩

/-- The configuration that sets the pruning strategy and nothing else. -/
def pruningOnlyOpts : AppOptions :=
  ⟨fun k => if k = "pruning" then Value.str "default" else Value.nil⟩

/-- A configuration with authentication enabled and one malformed address. -/
def malformedOpts : AppOptions :=
  ⟨fun k =>
    if k = "pruning" then Value.str "default"
    else if k = "home" then Value.str "/root/.kava"
    else if k = flagMempoolEnableAuth then Value.bool true
    else if k = flagMempoolAuthAddresses then Value.strs ["not-a-valid-address"]
    else Value.nil⟩

/-- A configuration that lists two addresses and leaves the authentication flag out. -/
def addressesOnlyOpts : AppOptions :=
  ⟨fun k =>
    if k = "pruning" then Value.str "default"
    else if k = "home" then Value.str "/root/.kava"
    else if k = flagMempoolAuthAddresses then Value.strs [addrA, addrB]
    else Value.nil⟩

/-- The configuration `addressesOnlyOpts` with the authentication flag set. -/
def addressesAuthOpts : AppOptions :=
  ⟨fun k =>
    if k = "pruning" then Value.str "default"
    else if k = "home" then Value.str "/root/.kava"
    else if k = flagMempoolEnableAuth then Value.bool true
    else if k = flagMempoolAuthAddresses then Value.strs [addrA, addrB]
    else Value.nil⟩

/-- A configuration whose values for the skip-upgrade list, the invariant-check period
and the authentication flag do not coerce. -/
def garbledOpts : AppOptions :=
  ⟨fun k =>
    if k = "pruning" then Value.str "default"
    else if k = "home" then Value.str "/root/.kava"
    else if k = "unsafe-skip-upgrades" then Value.str "100,200"
    else if k = "inv-check-period" then Value.str "often"
    else if k = flagMempoolEnableAuth then Value.str "maybe"
    else if k = flagMempoolAuthAddresses then Value.strs [addrB]
    else Value.nil⟩

/-- A configuration with the skip-upgrade heights 100, 100, -7. -/
def skipOpts : AppOptions :=
  ⟨fun k =>
    if k = "pruning" then Value.str "default"
    else if k = "home" then Value.str "/root/.kava"
    else if k = "unsafe-skip-upgrades" then Value.ints [100, 100, -7]
    else Value.nil⟩

/-- A configuration whose minimum gas price is no coin expression; every other value
resolves. -/
def badGasPriceOpts : AppOptions :=
  ⟨fun k =>
    if k = "pruning" then Value.str "default"
    else if k = "home" then Value.str "/root/.kava"
    else if k = "minimum-gas-prices" then Value.str "not a coin"
    else Value.nil⟩

/-! ## Lemmas on the address loop -/

theorem accAddressesFromBech32Loop_all_ok (dec : String → AccAddress × Option GoError) :
    ∀ (l : List String) (acc : List AccAddress),
      (∀ s ∈ l, (dec s).2 = none) →
      accAddressesFromBech32Loop dec l acc = (acc ++ l.map (fun s => (dec s).1), none)
  | [], acc, _ => by simp [accAddressesFromBech32Loop]
  | s :: rest, acc, h => by
    have hs : (dec s).2 = none := h s (by simp)
    have ih := accAddressesFromBech32Loop_all_ok dec rest (acc ++ [(dec s).1])
      (fun t ht => h t (by simp [ht]))
    rcases hd : dec s with ⟨a, e⟩
    rw [hd] at hs ih
    simp only at hs
    subst hs
    simp [accAddressesFromBech32Loop, hd, ih]

theorem accAddressesFromBech32Loop_first_err (dec : String → AccAddress × Option GoError) :
    ∀ (l : List String) (acc : List AccAddress),
      (∃ s ∈ l, (dec s).2 ≠ none) →
      ∃ (pre : List String) (s : String) (post : List String) (err : GoError),
        l = pre ++ s :: post ∧ (∀ t ∈ pre, (dec t).2 = none) ∧ (dec s).2 = some err ∧
        accAddressesFromBech32Loop dec l acc = ([], some err)
  | [], _, h => by simp at h
  | s :: rest, acc, h => by
    rcases hd : dec s with ⟨a, e⟩
    cases e with
    | some err =>
      exact ⟨[], s, rest, err, by simp, by simp, by simp [hd],
        by simp [accAddressesFromBech32Loop, hd]⟩
    | none =>
      have hrest : ∃ t ∈ rest, (dec t).2 ≠ none := by
        obtain ⟨t, ht, hne⟩ := h
        rcases List.mem_cons.mp ht with rfl | ht
        · simp [hd] at hne
        · exact ⟨t, ht, hne⟩
      obtain ⟨pre, t, post, err, hl, hpre, ht, hrun⟩ :=
        accAddressesFromBech32Loop_first_err dec rest (acc ++ [a]) hrest
      refine ⟨s :: pre, t, post, err, by simp [hl], ?_, ht, ?_⟩
      · intro u hu
        rcases List.mem_cons.mp hu with rfl | hu
        · simp [hd]
        · exact hpre u hu
      · simp [accAddressesFromBech32Loop, hd, hrun]

theorem accAddressesFromBech32_err_iff (dec : String → AccAddress × Option GoError)
    (l : List String) :
    (accAddressesFromBech32 dec l).2 ≠ none ↔ ∃ s ∈ l, (dec s).2 ≠ none := by
  constructor
  · intro hne
    by_contra hall
    have hok : ∀ s ∈ l, (dec s).2 = none := by
      intro s hs
      by_contra hs2
      exact hall ⟨s, hs, hs2⟩
    have := accAddressesFromBech32Loop_all_ok dec l [] hok
    simp [accAddressesFromBech32, this] at hne
  · intro h
    obtain ⟨_, _, _, err, _, _, _, hrun⟩ := accAddressesFromBech32Loop_first_err dec l [] h
    simp [accAddressesFromBech32, hrun]

/-! ## Lemmas on the height map -/

theorem HeightMap.has_set (m : HeightMap) (k : Int) (v : Bool) (h : Int) :
    (HeightMap.set m k v).has h = (decide (k = h) || m.has h) := by
  induction m with
  | nil => simp [HeightMap.set, HeightMap.has]
  | cons p rest ih =>
    obtain ⟨k', v'⟩ := p
    by_cases hk : k' = k
    · subst hk
      by_cases hh : k' = h <;> simp [HeightMap.set, HeightMap.has, hh]
    · by_cases hh : k' = h
      · subst hh
        simp [HeightMap.set, HeightMap.has, hk]
      · simp [HeightMap.set, HeightMap.has, hk, hh, ih]

theorem HeightMap.index_set (m : HeightMap) (k : Int) (v : Bool) (h : Int) :
    (HeightMap.set m k v).index h = if k = h then v else m.index h := by
  induction m with
  | nil => simp [HeightMap.set, HeightMap.index]
  | cons p rest ih =>
    obtain ⟨k', v'⟩ := p
    by_cases hk : k' = k
    · subst hk
      by_cases hh : k' = h <;> simp [HeightMap.set, HeightMap.index, hh]
    · by_cases hh : k' = h
      · subst hh
        have hk2 : ¬ k = k' := fun e => hk e.symm
        simp [HeightMap.set, HeightMap.index, hk, hk2]
      · simp [HeightMap.set, HeightMap.index, hk, hh, ih]

theorem HeightMap.keys_set (m : HeightMap) (k : Int) (v : Bool) (h : Int) :
    h ∈ (HeightMap.set m k v).map Prod.fst ↔ h = k ∨ h ∈ m.map Prod.fst := by
  induction m with
  | nil => simp [HeightMap.set]
  | cons p rest ih =>
    obtain ⟨k', v'⟩ := p
    by_cases hk : k' = k
    · subst hk
      simp [HeightMap.set]
    · simp only [HeightMap.set, hk, if_false, List.map_cons, List.mem_cons, ih]
      tauto

theorem HeightMap.nodup_set (m : HeightMap) (k : Int) (v : Bool)
    (hm : (m.map Prod.fst).Nodup) : ((HeightMap.set m k v).map Prod.fst).Nodup := by
  induction m with
  | nil => simp [HeightMap.set]
  | cons p rest ih =>
    obtain ⟨k', v'⟩ := p
    simp only [List.map_cons, List.nodup_cons] at hm
    by_cases hk : k' = k
    · subst hk
      simpa [HeightMap.set] using hm
    · simp only [HeightMap.set, hk, if_false, List.map_cons, List.nodup_cons]
      refine ⟨?_, ih hm.2⟩
      intro hmem
      rcases (HeightMap.keys_set rest k v k').mp hmem with h1 | h1
      · exact hk h1
      · exact hm.1 h1

theorem skipUpgradeHeightsLoop_has (hs : List Int) :
    ∀ (m : HeightMap) (h : Int),
      (skipUpgradeHeightsLoop hs m).has h = true ↔ h ∈ hs ∨ m.has h = true := by
  induction hs with
  | nil => intro m h; simp [skipUpgradeHeightsLoop]
  | cons x rest ih =>
    intro m h
    simp only [skipUpgradeHeightsLoop, ih, HeightMap.has_set, int64, List.mem_cons,
      Bool.or_eq_true, decide_eq_true_eq]
    constructor
    · rintro (h1 | h1 | h1)
      · exact Or.inl (Or.inr h1)
      · exact Or.inl (Or.inl h1.symm)
      · exact Or.inr h1
    · rintro ((h1 | h1) | h1)
      · exact Or.inr (Or.inl h1.symm)
      · exact Or.inl h1
      · exact Or.inr (Or.inr h1)

theorem skipUpgradeHeightsLoop_index (hs : List Int) :
    ∀ (m : HeightMap) (h : Int),
      (skipUpgradeHeightsLoop hs m).index h = true ↔ h ∈ hs ∨ m.index h = true := by
  induction hs with
  | nil => intro m h; simp [skipUpgradeHeightsLoop]
  | cons x rest ih =>
    intro m h
    simp only [skipUpgradeHeightsLoop, ih, HeightMap.index_set, int64, List.mem_cons]
    by_cases hx : x = h
    · subst hx
      simp
    · have hx2 : ¬ h = x := fun e => hx e.symm
      simp [hx, hx2]

theorem skipUpgradeHeightsLoop_nodup (hs : List Int) :
    ∀ (m : HeightMap), (m.map Prod.fst).Nodup →
      ((skipUpgradeHeightsLoop hs m).map Prod.fst).Nodup := by
  induction hs with
  | nil => intro m hm; simpa [skipUpgradeHeightsLoop] using hm
  | cons x rest ih =>
    intro m hm
    exact ih _ (HeightMap.nodup_set m (int64 x) true hm)

/-! ## The six ways through `newApp` -/

theorem newApp_pruning_err (env : Env) (ac : appCreator) (logger : Logger) (db : DB)
    (traceStore : Writer) (appOpts : AppOptions) (err : GoError)
    (hP : (env.GetPruningOptionsFromFlags appOpts).2 = some err) :
    newApp env ac logger db traceStore appOpts = ⟨[], Except.error (PanicValue.err err)⟩ := by
  rcases hp : env.GetPruningOptionsFromFlags appOpts with ⟨p, e⟩
  rw [hp] at hP
  simp only at hP
  subst hP
  simp [newApp, hp]

theorem newApp_levelDB_err (env : Env) (ac : appCreator) (logger : Logger) (db : DB)
    (traceStore : Writer) (appOpts : AppOptions) (err : GoError)
    (hP : (env.GetPruningOptionsFromFlags appOpts).2 = none)
    (hL : (env.NewLevelDB "metadata"
      (env.Join [env.cast.ToString (appOpts.Get env.flags.FlagHome), "data", "snapshots"])).2
        = some err) :
    newApp env ac logger db traceStore appOpts =
      ⟨[Call.NewLevelDB "metadata"
          (env.Join [env.cast.ToString (appOpts.Get env.flags.FlagHome), "data", "snapshots"])],
        Except.error (PanicValue.err err)⟩ := by
  rcases hp : env.GetPruningOptionsFromFlags appOpts with ⟨p, e⟩
  rw [hp] at hP
  simp only at hP
  subst hP
  rcases hl : env.NewLevelDB "metadata"
      (env.Join [env.cast.ToString (appOpts.Get env.flags.FlagHome), "data", "snapshots"])
    with ⟨d, e⟩
  rw [hl] at hL
  simp only at hL
  subst hL
  simp [newApp, hp, hl]

theorem newApp_store_err (env : Env) (ac : appCreator) (logger : Logger) (db : DB)
    (traceStore : Writer) (appOpts : AppOptions) (err : GoError)
    (hP : (env.GetPruningOptionsFromFlags appOpts).2 = none)
    (hL : (env.NewLevelDB "metadata"
      (env.Join [env.cast.ToString (appOpts.Get env.flags.FlagHome), "data", "snapshots"])).2
        = none)
    (hS : (env.NewStore
      (env.NewLevelDB "metadata"
        (env.Join [env.cast.ToString (appOpts.Get env.flags.FlagHome), "data", "snapshots"])).1
      (env.Join [env.cast.ToString (appOpts.Get env.flags.FlagHome), "data", "snapshots"])).2
        = some err) :
    newApp env ac logger db traceStore appOpts =
      ⟨[Call.NewLevelDB "metadata"
          (env.Join [env.cast.ToString (appOpts.Get env.flags.FlagHome), "data", "snapshots"]),
        Call.NewStore
          (env.NewLevelDB "metadata"
            (env.Join
              [env.cast.ToString (appOpts.Get env.flags.FlagHome), "data", "snapshots"])).1
          (env.Join [env.cast.ToString (appOpts.Get env.flags.FlagHome), "data", "snapshots"])],
        Except.error (PanicValue.err err)⟩ := by
  rcases hp : env.GetPruningOptionsFromFlags appOpts with ⟨p, e⟩
  rw [hp] at hP
  simp only at hP
  subst hP
  rcases hl : env.NewLevelDB "metadata"
      (env.Join [env.cast.ToString (appOpts.Get env.flags.FlagHome), "data", "snapshots"])
    with ⟨d, e⟩
  rw [hl] at hL hS
  simp only at hL hS
  subst hL
  rcases hs : env.NewStore d
      (env.Join [env.cast.ToString (appOpts.Get env.flags.FlagHome), "data", "snapshots"])
    with ⟨st, e⟩
  rw [hs] at hS
  simp only at hS
  subst hS
  simp [newApp, hp, hl, hs]

theorem newApp_decode_err (env : Env) (ac : appCreator) (logger : Logger) (db : DB)
    (traceStore : Writer) (appOpts : AppOptions) (err : GoError)
    (hP : (env.GetPruningOptionsFromFlags appOpts).2 = none)
    (hL : (env.NewLevelDB "metadata"
      (env.Join [env.cast.ToString (appOpts.Get env.flags.FlagHome), "data", "snapshots"])).2
        = none)
    (hS : (env.NewStore
      (env.NewLevelDB "metadata"
        (env.Join [env.cast.ToString (appOpts.Get env.flags.FlagHome), "data", "snapshots"])).1
      (env.Join [env.cast.ToString (appOpts.Get env.flags.FlagHome), "data", "snapshots"])).2
        = none)
    (hA : (accAddressesFromBech32 env.AccAddressFromBech32
      (env.cast.ToStringSlice (appOpts.Get flagMempoolAuthAddresses))).2 = some err) :
    newApp env ac logger db traceStore appOpts =
      ⟨[Call.NewLevelDB "metadata"
          (env.Join [env.cast.ToString (appOpts.Get env.flags.FlagHome), "data", "snapshots"]),
        Call.NewStore
          (env.NewLevelDB "metadata"
            (env.Join
              [env.cast.ToString (appOpts.Get env.flags.FlagHome), "data", "snapshots"])).1
          (env.Join [env.cast.ToString (appOpts.Get env.flags.FlagHome), "data", "snapshots"])],
        Except.error
          (PanicValue.str ("could not get authorized address from config: " ++ err))⟩ := by
  rcases hp : env.GetPruningOptionsFromFlags appOpts with ⟨p, e⟩
  rw [hp] at hP
  simp only at hP
  subst hP
  rcases hl : env.NewLevelDB "metadata"
      (env.Join [env.cast.ToString (appOpts.Get env.flags.FlagHome), "data", "snapshots"])
    with ⟨d, e⟩
  rw [hl] at hL hS
  simp only at hL hS
  subst hL
  rcases hs : env.NewStore d
      (env.Join [env.cast.ToString (appOpts.Get env.flags.FlagHome), "data", "snapshots"])
    with ⟨st, e⟩
  rw [hs] at hS
  simp only at hS
  subst hS
  rcases ha : accAddressesFromBech32 env.AccAddressFromBech32
      (env.cast.ToStringSlice (appOpts.Get flagMempoolAuthAddresses)) with ⟨as, e⟩
  rw [ha] at hA
  simp only at hA
  subst hA
  simp [newApp, hp, hl, hs, ha]

theorem newApp_gasPrices_err (env : Env) (ac : appCreator) (logger : Logger) (db : DB)
    (traceStore : Writer) (appOpts : AppOptions) (v : PanicValue)
    (hP : (env.GetPruningOptionsFromFlags appOpts).2 = none)
    (hL : (env.NewLevelDB "metadata"
      (env.Join [env.cast.ToString (appOpts.Get env.flags.FlagHome), "data", "snapshots"])).2
        = none)
    (hS : (env.NewStore
      (env.NewLevelDB "metadata"
        (env.Join [env.cast.ToString (appOpts.Get env.flags.FlagHome), "data", "snapshots"])).1
      (env.Join [env.cast.ToString (appOpts.Get env.flags.FlagHome), "data", "snapshots"])).2
        = none)
    (hA : (accAddressesFromBech32 env.AccAddressFromBech32
      (env.cast.ToStringSlice (appOpts.Get flagMempoolAuthAddresses))).2 = none)
    (hG : env.SetMinGasPrices (env.cast.ToString (appOpts.Get env.flags.FlagMinGasPrices)) =
      some v) :
    newApp env ac logger db traceStore appOpts =
      ⟨[Call.NewLevelDB "metadata"
          (env.Join [env.cast.ToString (appOpts.Get env.flags.FlagHome), "data", "snapshots"]),
        Call.NewStore
          (env.NewLevelDB "metadata"
            (env.Join
              [env.cast.ToString (appOpts.Get env.flags.FlagHome), "data", "snapshots"])).1
          (env.Join [env.cast.ToString (appOpts.Get env.flags.FlagHome), "data", "snapshots"])],
        Except.error v⟩ := by
  rcases hp : env.GetPruningOptionsFromFlags appOpts with ⟨p, e⟩
  rw [hp] at hP
  simp only at hP
  subst hP
  rcases hl : env.NewLevelDB "metadata"
      (env.Join [env.cast.ToString (appOpts.Get env.flags.FlagHome), "data", "snapshots"])
    with ⟨d, e⟩
  rw [hl] at hL hS
  simp only at hL hS
  subst hL
  rcases hs : env.NewStore d
      (env.Join [env.cast.ToString (appOpts.Get env.flags.FlagHome), "data", "snapshots"])
    with ⟨st, e⟩
  rw [hs] at hS
  simp only at hS
  subst hS
  rcases ha : accAddressesFromBech32 env.AccAddressFromBech32
      (env.cast.ToStringSlice (appOpts.Get flagMempoolAuthAddresses)) with ⟨as, e⟩
  rw [ha] at hA
  simp only at hA
  subst hA
  simp [newApp, hp, hl, hs, ha, hG]

theorem newApp_ok (env : Env) (ac : appCreator) (logger : Logger) (db : DB)
    (traceStore : Writer) (appOpts : AppOptions)
    (hP : (env.GetPruningOptionsFromFlags appOpts).2 = none)
    (hL : (env.NewLevelDB "metadata"
      (env.Join [env.cast.ToString (appOpts.Get env.flags.FlagHome), "data", "snapshots"])).2
        = none)
    (hS : (env.NewStore
      (env.NewLevelDB "metadata"
        (env.Join [env.cast.ToString (appOpts.Get env.flags.FlagHome), "data", "snapshots"])).1
      (env.Join [env.cast.ToString (appOpts.Get env.flags.FlagHome), "data", "snapshots"])).2
        = none)
    (hA : (accAddressesFromBech32 env.AccAddressFromBech32
      (env.cast.ToStringSlice (appOpts.Get flagMempoolAuthAddresses))).2 = none)
    (hG : env.SetMinGasPrices (env.cast.ToString (appOpts.Get env.flags.FlagMinGasPrices)) =
      none) :
    newApp env ac logger db traceStore appOpts =
      ⟨[Call.NewLevelDB "metadata"
          (env.Join [env.cast.ToString (appOpts.Get env.flags.FlagHome), "data", "snapshots"]),
        Call.NewStore
          (env.NewLevelDB "metadata"
            (env.Join
              [env.cast.ToString (appOpts.Get env.flags.FlagHome), "data", "snapshots"])).1
          (env.Join [env.cast.ToString (appOpts.Get env.flags.FlagHome), "data", "snapshots"])],
        Except.ok
          { logger := logger
            db := db
            traceStore := traceStore
            encodingConfig := ac.encodingConfig
            options :=
              { SkipLoadLatest := false
                SkipUpgradeHeights :=
                  skipUpgradeHeightsLoop
                    (env.cast.ToIntSlice (appOpts.Get env.flags.FlagUnsafeSkipUpgrades)) []
                InvariantCheckPeriod :=
                  env.cast.ToUint (appOpts.Get env.flags.FlagInvCheckPeriod)
                MempoolEnableAuth := env.cast.ToBool (appOpts.Get flagMempoolEnableAuth)
                MempoolAuthAddresses :=
                  (accAddressesFromBech32 env.AccAddressFromBech32
                    (env.cast.ToStringSlice (appOpts.Get flagMempoolAuthAddresses))).1 }
            baseAppOptions :=
              [ BaseAppOption.SetPruning (env.GetPruningOptionsFromFlags appOpts).1,
                BaseAppOption.SetMinGasPrices
                  (env.cast.ToString (appOpts.Get env.flags.FlagMinGasPrices)),
                BaseAppOption.SetHaltHeight
                  (env.cast.ToUint64 (appOpts.Get env.flags.FlagHaltHeight)),
                BaseAppOption.SetHaltTime
                  (env.cast.ToUint64 (appOpts.Get env.flags.FlagHaltTime)),
                BaseAppOption.SetMinRetainBlocks
                  (env.cast.ToUint64 (appOpts.Get env.flags.FlagMinRetainBlocks)),
                BaseAppOption.SetInterBlockCache
                  (if env.cast.ToBool (appOpts.Get env.flags.FlagInterBlockCache) then
                    MultiStorePersistentCache.commitKVStoreCacheManager
                  else MultiStorePersistentCache.nil),
                BaseAppOption.SetTrace (env.cast.ToBool (appOpts.Get env.flags.FlagTrace)),
                BaseAppOption.SetIndexEvents
                  (env.cast.ToStringSlice (appOpts.Get env.flags.FlagIndexEvents)),
                BaseAppOption.SetSnapshotStore
                  (env.NewStore
                    (env.NewLevelDB "metadata"
                      (env.Join
                        [env.cast.ToString (appOpts.Get env.flags.FlagHome), "data",
                          "snapshots"])).1
                    (env.Join
                      [env.cast.ToString (appOpts.Get env.flags.FlagHome), "data",
                        "snapshots"])).1,
                BaseAppOption.SetSnapshotInterval
                  (env.cast.ToUint64 (appOpts.Get env.flags.FlagStateSyncSnapshotInterval)),
                BaseAppOption.SetSnapshotKeepRecent
                  (env.cast.ToUint32
                    (appOpts.Get env.flags.FlagStateSyncSnapshotKeepRecent)) ] }⟩ := by
  rcases hp : env.GetPruningOptionsFromFlags appOpts with ⟨p, e⟩
  rw [hp] at hP
  simp only at hP
  subst hP
  rcases hl : env.NewLevelDB "metadata"
      (env.Join [env.cast.ToString (appOpts.Get env.flags.FlagHome), "data", "snapshots"])
    with ⟨d, e⟩
  rw [hl] at hL hS
  simp only at hL hS
  subst hL
  rcases hs : env.NewStore d
      (env.Join [env.cast.ToString (appOpts.Get env.flags.FlagHome), "data", "snapshots"])
    with ⟨st, e⟩
  rw [hs] at hS
  simp only at hS
  subst hS
  rcases ha : accAddressesFromBech32 env.AccAddressFromBech32
      (env.cast.ToStringSlice (appOpts.Get flagMempoolAuthAddresses)) with ⟨as, e⟩
  rw [ha] at hA
  simp only at hA
  subst hA
  simp [newApp, hp, hl, hs, ha, hG]

theorem newApp_ok_inv (env : Env) (ac : appCreator) (logger : Logger) (db : DB)
    (traceStore : Writer) (appOpts : AppOptions) (call : NewAppCall)
    (hrun : (newApp env ac logger db traceStore appOpts).result = Except.ok call) :
    (env.GetPruningOptionsFromFlags appOpts).2 = none ∧
    (env.NewLevelDB "metadata"
      (env.Join [env.cast.ToString (appOpts.Get env.flags.FlagHome), "data", "snapshots"])).2
        = none ∧
    (env.NewStore
      (env.NewLevelDB "metadata"
        (env.Join [env.cast.ToString (appOpts.Get env.flags.FlagHome), "data", "snapshots"])).1
      (env.Join [env.cast.ToString (appOpts.Get env.flags.FlagHome), "data", "snapshots"])).2
        = none ∧
    (accAddressesFromBech32 env.AccAddressFromBech32
      (env.cast.ToStringSlice (appOpts.Get flagMempoolAuthAddresses))).2 = none ∧
    env.SetMinGasPrices (env.cast.ToString (appOpts.Get env.flags.FlagMinGasPrices)) =
      none := by
  cases hP : (env.GetPruningOptionsFromFlags appOpts).2 with
  | some err =>
    rw [newApp_pruning_err env ac logger db traceStore appOpts err hP] at hrun
    simp at hrun
  | none =>
    cases hL : (env.NewLevelDB "metadata"
      (env.Join [env.cast.ToString (appOpts.Get env.flags.FlagHome), "data", "snapshots"])).2
      with
    | some err =>
      rw [newApp_levelDB_err env ac logger db traceStore appOpts err hP hL] at hrun
      simp at hrun
    | none =>
      cases hS : (env.NewStore
        (env.NewLevelDB "metadata"
          (env.Join
            [env.cast.ToString (appOpts.Get env.flags.FlagHome), "data", "snapshots"])).1
        (env.Join
          [env.cast.ToString (appOpts.Get env.flags.FlagHome), "data", "snapshots"])).2 with
      | some err =>
        rw [newApp_store_err env ac logger db traceStore appOpts err hP hL hS] at hrun
        simp at hrun
      | none =>
        cases hA : (accAddressesFromBech32 env.AccAddressFromBech32
          (env.cast.ToStringSlice (appOpts.Get flagMempoolAuthAddresses))).2 with
        | some err =>
          rw [newApp_decode_err env ac logger db traceStore appOpts err hP hL hS hA] at hrun
          simp at hrun
        | none =>
          cases hG : env.SetMinGasPrices
            (env.cast.ToString (appOpts.Get env.flags.FlagMinGasPrices)) with
          | some v =>
            rw [newApp_gasPrices_err env ac logger db traceStore appOpts v hP hL hS hA hG]
              at hrun
            simp at hrun
          | none => exact ⟨rfl, rfl, rfl, rfl, rfl⟩

theorem newApp_err_inv (env : Env) (ac : appCreator) (logger : Logger) (db : DB)
    (traceStore : Writer) (appOpts : AppOptions) (pv : PanicValue)
    (hrun : (newApp env ac logger db traceStore appOpts).result = Except.error pv) :
    (env.GetPruningOptionsFromFlags appOpts).2 ≠ none ∨
    (env.NewLevelDB "metadata"
      (env.Join [env.cast.ToString (appOpts.Get env.flags.FlagHome), "data", "snapshots"])).2
        ≠ none ∨
    (env.NewStore
      (env.NewLevelDB "metadata"
        (env.Join [env.cast.ToString (appOpts.Get env.flags.FlagHome), "data", "snapshots"])).1
      (env.Join [env.cast.ToString (appOpts.Get env.flags.FlagHome), "data", "snapshots"])).2
        ≠ none ∨
    (accAddressesFromBech32 env.AccAddressFromBech32
      (env.cast.ToStringSlice (appOpts.Get flagMempoolAuthAddresses))).2 ≠ none ∨
    env.SetMinGasPrices (env.cast.ToString (appOpts.Get env.flags.FlagMinGasPrices)) ≠
      none := by
  by_contra hcon
  simp only [not_or, ne_eq, not_not] at hcon
  obtain ⟨hP, hL, hS, hA, hG⟩ := hcon
  rw [newApp_ok env ac logger db traceStore appOpts hP hL hS hA hG] at hrun
  simp at hrun

/-! ## The sample coercions meet the assumptions -/

theorem sampleCast_zeroOnNil : sampleCast.ZeroOnNil :=
  ⟨rfl, rfl, rfl, rfl, rfl, rfl, rfl⟩

theorem sampleParseBool_zero (s : String) (h : (sampleParseBool s).2 ≠ none) :
    (sampleParseBool s).1 = false := by
  unfold sampleParseBool at h ⊢
  split_ifs at h ⊢ <;> simp_all

theorem sampleToUintE_zero (bits : Nat) (i : Value) (h : (sampleToUintE bits i).2 ≠ none) :
    (sampleToUintE bits i).1 = 0 := by
  cases i with
  | int n =>
    by_cases hn : n < 0
    · simp [sampleToUintE, hn]
    · simp [sampleToUintE, hn] at h
  | str s =>
    simp only [sampleToUintE] at h ⊢
    cases hs : sampleParseDigits s.data with
    | none => simp
    | some n =>
      simp only [hs] at h ⊢
      split_ifs at h ⊢ <;> simp_all
  | bool b => simp [sampleToUintE] at h
  | _ => rfl

theorem sampleCast_zeroOnError : sampleCast.ZeroOnError where
  toBool := by
    intro i h
    cases i with
    | str s => exact sampleParseBool_zero s h
    | nil => simp [sampleCast] at h
    | bool b => simp [sampleCast] at h
    | int n => simp [sampleCast] at h
    | _ => rfl
  toString := by
    intro i h
    cases i with
    | nil => simp [sampleCast] at h
    | str s => simp [sampleCast] at h
    | bool b => simp [sampleCast] at h
    | int n => simp [sampleCast] at h
    | _ => rfl
  toUint := sampleToUintE_zero 64
  toUint32 := sampleToUintE_zero 32
  toUint64 := sampleToUintE_zero 64
  toIntSlice := by
    intro i h
    cases i with
    | ints l => simp [sampleCast] at h
    | _ => rfl
  toStringSlice := by
    intro i h
    cases i with
    | strs l => simp [sampleCast] at h
    | str s => simp [sampleCast] at h
    | _ => rfl

theorem samplePruning_agree (x y : AppOptions)
    (h : AppOptions.AgreeExcept flagMempoolEnableAuth x y) :
    sampleEnv.GetPruningOptionsFromFlags x = sampleEnv.GetPruningOptionsFromFlags y := by
  have hk : x.Get "pruning" = y.Get "pruning" := h "pruning" (by decide)
  simp [sampleEnv, sampleGetPruningOptionsFromFlags, hk]

/-! ## The claims -/

/-- C1: when every input string decodes, `accAddressesFromBech32` returns no error and
a slice as long as the input whose element at each index is the decoding of the input
string at that index; the empty input gives the empty slice and no error. -/
theorem accAddressesFromBech32_decodes_all (dec : String → AccAddress × Option GoError)
    (addresses : List String) (hall : ∀ s ∈ addresses, (dec s).2 = none) :
    (accAddressesFromBech32 dec addresses).2 = none ∧
    (accAddressesFromBech32 dec addresses).1.length = addresses.length ∧
    (∀ (i : Nat) (hi : i < addresses.length),
      (accAddressesFromBech32 dec addresses).1[i]? = some (dec addresses[i]).1) ∧
    accAddressesFromBech32 dec [] = ([], none) := by
  have hrun := accAddressesFromBech32Loop_all_ok dec addresses [] hall
  refine ⟨?_, ?_, ?_, by simp [accAddressesFromBech32, accAddressesFromBech32Loop]⟩
  · simp [accAddressesFromBech32, hrun]
  · simp [accAddressesFromBech32, hrun]
  · intro i hi
    simp [accAddressesFromBech32, hrun, hi]

theorem accAddressesFromBech32_decodes_all_witness :
    (accAddressesFromBech32 sampleAccAddressFromBech32 [addrA, addrB]).2 = none ∧
    (accAddressesFromBech32 sampleAccAddressFromBech32 [addrA, addrB]).1.length = 2 ∧
    (accAddressesFromBech32 sampleAccAddressFromBech32 [addrA, addrB]).1[0]? = some bytesA ∧
    (accAddressesFromBech32 sampleAccAddressFromBech32 [addrA, addrB]).1[1]? = some bytesB :=
  have h := accAddressesFromBech32_decodes_all sampleAccAddressFromBech32 [addrA, addrB]
    (by decide)
  ⟨h.1, h.2.1, h.2.2.1 0 (by decide), h.2.2.1 1 (by decide)⟩

/-- C2: when some input string fails to decode, `accAddressesFromBech32` returns the
nil slice together with the error of the first failing string: the input splits into
strings that all decode, the failing string, and a rest that is never looked at. -/
theorem accAddressesFromBech32_first_failure (dec : String → AccAddress × Option GoError)
    (addresses : List String) (hbad : ∃ s ∈ addresses, (dec s).2 ≠ none) :
    ∃ (pre : List String) (s : String) (post : List String) (err : GoError),
      addresses = pre ++ s :: post ∧ (∀ t ∈ pre, (dec t).2 = none) ∧
      (dec s).2 = some err ∧
      accAddressesFromBech32 dec addresses = ([], some err) := by
  simpa [accAddressesFromBech32] using
    accAddressesFromBech32Loop_first_err dec addresses [] hbad

theorem accAddressesFromBech32_first_failure_witness :
    (∃ (pre : List String) (s : String) (post : List String) (err : GoError),
      [addrA, "not-a-valid-address", addrB, ""] = pre ++ s :: post ∧
      (∀ t ∈ pre, (sampleAccAddressFromBech32 t).2 = none) ∧
      (sampleAccAddressFromBech32 s).2 = some err ∧
      accAddressesFromBech32 sampleAccAddressFromBech32
        [addrA, "not-a-valid-address", addrB, ""] = ([], some err)) ∧
    accAddressesFromBech32 sampleAccAddressFromBech32
        [addrA, "not-a-valid-address", addrB, ""] =
      ([], some "decoding bech32 failed: invalid index of 1") :=
  ⟨accAddressesFromBech32_first_failure sampleAccAddressFromBech32
      [addrA, "not-a-valid-address", addrB, ""] ⟨"", by decide, by decide⟩,
    rfl⟩

/-- C3: when the coerced `mempool.authorized-addresses` list holds a string that fails
to decode, `newApp` panics and the runtime constructor receives no call; if pruning
resolution and both store constructors succeed, the panic carries the message
`could not get authorized address from config: ` followed by the error of the first
failing string. -/
theorem newApp_malformed_address_aborts (env : Env) (ac : appCreator) (logger : Logger)
    (db : DB) (traceStore : Writer) (appOpts : AppOptions)
    (hbad : ∃ s ∈ env.cast.ToStringSlice (appOpts.Get flagMempoolAuthAddresses),
      (env.AccAddressFromBech32 s).2 ≠ none) :
    (∃ pv, (newApp env ac logger db traceStore appOpts).result = Except.error pv) ∧
    (∀ call, (newApp env ac logger db traceStore appOpts).result ≠ Except.ok call) ∧
    ((env.GetPruningOptionsFromFlags appOpts).2 = none →
      (env.NewLevelDB "metadata"
        (env.Join [env.cast.ToString (appOpts.Get env.flags.FlagHome), "data", "snapshots"])).2
          = none →
      (env.NewStore
        (env.NewLevelDB "metadata"
          (env.Join
            [env.cast.ToString (appOpts.Get env.flags.FlagHome), "data", "snapshots"])).1
        (env.Join [env.cast.ToString (appOpts.Get env.flags.FlagHome), "data", "snapshots"])).2
          = none →
      ∃ (pre : List String) (s : String) (post : List String) (err : GoError),
        env.cast.ToStringSlice (appOpts.Get flagMempoolAuthAddresses) = pre ++ s :: post ∧
        (∀ t ∈ pre, (env.AccAddressFromBech32 t).2 = none) ∧
        (env.AccAddressFromBech32 s).2 = some err ∧
        (newApp env ac logger db traceStore appOpts).result =
          Except.error
            (PanicValue.str ("could not get authorized address from config: " ++ err))) := by
  have hnot : ∀ call, (newApp env ac logger db traceStore appOpts).result ≠ Except.ok call := by
    intro call hrun
    have hA := (newApp_ok_inv env ac logger db traceStore appOpts call hrun).2.2.2.1
    exact (accAddressesFromBech32_err_iff _ _).mpr hbad hA
  refine ⟨?_, hnot, ?_⟩
  · cases hres : (newApp env ac logger db traceStore appOpts).result with
    | error pv => exact ⟨pv, rfl⟩
    | ok call => exact absurd hres (hnot call)
  · intro hP hL hS
    obtain ⟨pre, s, post, err, hl, hpre, hs, hrun⟩ :=
      accAddressesFromBech32Loop_first_err env.AccAddressFromBech32 _ [] hbad
    refine ⟨pre, s, post, err, hl, hpre, hs, ?_⟩
    rw [newApp_decode_err env ac logger db traceStore appOpts err hP hL hS
      (by rw [accAddressesFromBech32, hrun])]

theorem newApp_malformed_address_aborts_witness :
    (∀ call,
      (newApp sampleEnv sampleCreator sampleLogger sampleDB sampleTrace malformedOpts).result ≠
        Except.ok call) ∧
    (newApp sampleEnv sampleCreator sampleLogger sampleDB sampleTrace malformedOpts).result =
      Except.error
        (PanicValue.str
          ("could not get authorized address from config: " ++
            "decoding bech32 failed: invalid index of 1")) ∧
    ∃ (pre : List String) (s : String) (post : List String) (err : GoError),
      sampleEnv.cast.ToStringSlice (malformedOpts.Get flagMempoolAuthAddresses) =
        pre ++ s :: post ∧
      (∀ t ∈ pre, (sampleEnv.AccAddressFromBech32 t).2 = none) ∧
      (sampleEnv.AccAddressFromBech32 s).2 = some err ∧
      (newApp sampleEnv sampleCreator sampleLogger sampleDB sampleTrace malformedOpts).result =
        Except.error
          (PanicValue.str ("could not get authorized address from config: " ++ err)) :=
  have h := newApp_malformed_address_aborts sampleEnv sampleCreator sampleLogger sampleDB
    sampleTrace malformedOpts ⟨"not-a-valid-address", by decide, by decide⟩
  ⟨h.2.1, rfl, h.2.2 rfl rfl rfl⟩

/-- C4: with `hs` the coerced skip-upgrade list, the map handed to the runtime
constructor is the one the loop builds from `hs`; a height is a key of it exactly when
it occurs in `hs`, and it is stored as `true` exactly then, negative heights included;
every key is held once; the empty list gives the empty map and `[100, 100]` the map
with the single key 100. -/
theorem newApp_skipUpgradeHeights (env : Env) (ac : appCreator) (logger : Logger) (db : DB)
    (traceStore : Writer) (appOpts : AppOptions) (hs : List Int)
    (hcfg : env.cast.ToIntSlice (appOpts.Get env.flags.FlagUnsafeSkipUpgrades) = hs)
    (h : Int) :
    (∀ call, (newApp env ac logger db traceStore appOpts).result = Except.ok call →
      call.options.SkipUpgradeHeights = skipUpgradeHeightsLoop hs []) ∧
    ((skipUpgradeHeightsLoop hs []).has h = true ↔ h ∈ hs) ∧
    ((skipUpgradeHeightsLoop hs []).index h = true ↔ h ∈ hs) ∧
    ((skipUpgradeHeightsLoop hs []).map Prod.fst).Nodup ∧
    skipUpgradeHeightsLoop [] [] = [] ∧
    skipUpgradeHeightsLoop [100, 100] [] = [(100, true)] ∧
    HeightMap.len (skipUpgradeHeightsLoop [100, 100] []) = 1 := by
  refine ⟨?_, ?_, ?_, ?_, rfl, ?_, ?_⟩
  · intro call hrun
    obtain ⟨hP, hL, hS, hA, hG⟩ :=
      newApp_ok_inv env ac logger db traceStore appOpts call hrun
    rw [newApp_ok env ac logger db traceStore appOpts hP hL hS hA hG] at hrun
    simp only [Except.ok.injEq] at hrun
    rw [← hrun, hcfg]
  · simpa [HeightMap.has] using skipUpgradeHeightsLoop_has hs [] h
  · simpa [HeightMap.index] using skipUpgradeHeightsLoop_index hs [] h
  · exact skipUpgradeHeightsLoop_nodup hs [] (by simp)
  · simp [skipUpgradeHeightsLoop, HeightMap.set, int64]
  · simp [skipUpgradeHeightsLoop, HeightMap.set, HeightMap.len, int64]

theorem newApp_skipUpgradeHeights_witness :
    ((skipUpgradeHeightsLoop [100, 100, -7] []).has (-7) = true ↔
      (-7 : Int) ∈ [100, 100, -7]) ∧
    ((skipUpgradeHeightsLoop [100, 100, -7] []).index 99 = true ↔
      (99 : Int) ∈ [100, 100, -7]) ∧
    ∃ call,
      (newApp sampleEnv sampleCreator sampleLogger sampleDB sampleTrace skipOpts).result =
        Except.ok call ∧
      call.options.SkipUpgradeHeights = [(100, true), (-7, true)] :=
  ⟨(newApp_skipUpgradeHeights sampleEnv sampleCreator sampleLogger sampleDB sampleTrace
      skipOpts [100, 100, -7] rfl (-7)).2.1,
    (newApp_skipUpgradeHeights sampleEnv sampleCreator sampleLogger sampleDB sampleTrace
      skipOpts [100, 100, -7] rfl 99).2.2.1,
    _, rfl,
    (newApp_skipUpgradeHeights sampleEnv sampleCreator sampleLogger sampleDB sampleTrace
      skipOpts [100, 100, -7] rfl 0).1 _ rfl⟩

/-- C8: with `home` the coerced home directory, the only store calls `newApp` makes are
`NewLevelDB("metadata", dir)` and then `NewStore(snapshotDB, dir)`, both with
`dir = Join(home, "data", "snapshots")`: no call when pruning resolution fails, the
first alone when it fails itself, both otherwise; and the store handed to the runtime
constructor is the one `NewStore` returned for `dir`. -/
theorem newApp_snapshotDir (env : Env) (ac : appCreator) (logger : Logger) (db : DB)
    (traceStore : Writer) (appOpts : AppOptions) (home : String)
    (hhome : env.cast.ToString (appOpts.Get env.flags.FlagHome) = home) :
    (newApp env ac logger db traceStore appOpts).calls =
      (if (env.GetPruningOptionsFromFlags appOpts).2.isSome then []
      else if (env.NewLevelDB "metadata" (env.Join [home, "data", "snapshots"])).2.isSome then
        [Call.NewLevelDB "metadata" (env.Join [home, "data", "snapshots"])]
      else
        [Call.NewLevelDB "metadata" (env.Join [home, "data", "snapshots"]),
          Call.NewStore (env.NewLevelDB "metadata" (env.Join [home, "data", "snapshots"])).1
            (env.Join [home, "data", "snapshots"])]) ∧
    (∀ call, (newApp env ac logger db traceStore appOpts).result = Except.ok call →
      BaseAppOption.SetSnapshotStore
        (env.NewStore (env.NewLevelDB "metadata" (env.Join [home, "data", "snapshots"])).1
          (env.Join [home, "data", "snapshots"])).1 ∈ call.baseAppOptions) := by
  subst hhome
  constructor
  · cases hP : (env.GetPruningOptionsFromFlags appOpts).2 with
    | some err =>
      rw [newApp_pruning_err env ac logger db traceStore appOpts err hP]
      simp
    | none =>
      cases hL : (env.NewLevelDB "metadata"
        (env.Join [env.cast.ToString (appOpts.Get env.flags.FlagHome), "data", "snapshots"])).2
        with
      | some err =>
        rw [newApp_levelDB_err env ac logger db traceStore appOpts err hP hL]
        simp
      | none =>
        cases hS : (env.NewStore
          (env.NewLevelDB "metadata"
            (env.Join
              [env.cast.ToString (appOpts.Get env.flags.FlagHome), "data", "snapshots"])).1
          (env.Join
            [env.cast.ToString (appOpts.Get env.flags.FlagHome), "data", "snapshots"])).2 with
        | some err =>
          rw [newApp_store_err env ac logger db traceStore appOpts err hP hL hS]
          simp
        | none =>
          cases hA : (accAddressesFromBech32 env.AccAddressFromBech32
            (env.cast.ToStringSlice (appOpts.Get flagMempoolAuthAddresses))).2 with
          | some err =>
            rw [newApp_decode_err env ac logger db traceStore appOpts err hP hL hS hA]
            simp
          | none =>
            cases hG : env.SetMinGasPrices
              (env.cast.ToString (appOpts.Get env.flags.FlagMinGasPrices)) with
            | some v =>
              rw [newApp_gasPrices_err env ac logger db traceStore appOpts v hP hL hS hA hG]
              simp
            | none =>
              rw [newApp_ok env ac logger db traceStore appOpts hP hL hS hA hG]
              simp
  · intro call hrun
    obtain ⟨hP, hL, hS, hA, hG⟩ :=
      newApp_ok_inv env ac logger db traceStore appOpts call hrun
    rw [newApp_ok env ac logger db traceStore appOpts hP hL hS hA hG] at hrun
    simp only [Except.ok.injEq] at hrun
    rw [← hrun]
    simp

theorem newApp_snapshotDir_witness :
    (newApp sampleEnv sampleCreator sampleLogger sampleDB sampleTrace skipOpts).calls =
      [Call.NewLevelDB "metadata" "/root/.kava/data/snapshots",
        Call.NewStore ⟨"/root/.kava/data/snapshots/metadata.db"⟩
          "/root/.kava/data/snapshots"] ∧
    ∃ call,
      (newApp sampleEnv sampleCreator sampleLogger sampleDB sampleTrace skipOpts).result =
        Except.ok call ∧
      BaseAppOption.SetSnapshotStore ⟨"/root/.kava/data/snapshots"⟩ ∈ call.baseAppOptions :=
  ⟨(newApp_snapshotDir sampleEnv sampleCreator sampleLogger sampleDB sampleTrace skipOpts
      "/root/.kava" rfl).1,
    _, rfl,
    (newApp_snapshotDir sampleEnv sampleCreator sampleLogger sampleDB sampleTrace skipOpts
      "/root/.kava" rfl).2 _ rfl⟩

/-- C9: for every receiver and every argument list, `appExport` panics with `TODO`; it
returns neither an exported application nor an error value. -/
theorem appExport_always_panics (ac : appCreator) (logger : Logger) (db : DB)
    (traceStore : Writer) (height : Int) (forZeroHeight : Bool)
    (jailAllowedAddrs : List String) (appOpts : AppOptions) :
    appExport ac logger db traceStore height forZeroHeight jailAllowedAddrs appOpts =
      Except.error (PanicValue.str "TODO") ∧
    ∀ (exported : ExportedApp) (err : Option GoError),
      appExport ac logger db traceStore height forZeroHeight jailAllowedAddrs appOpts ≠
        Except.ok (exported, err) := by
  constructor
  · rfl
  · intro exported err hret
    simp [appExport] at hret

/-- C5, as the code has it: when `mempool.enable-authentication` is absent and the
runtime constructor is reached, `MempoolEnableAuth` is false and `MempoolAuthAddresses`
is the in-order decoding of the coerced `mempool.authorized-addresses` list, whatever
the flag; it is empty when that list is empty, in particular when that key is absent
as well. -/
theorem newApp_omitted_auth_flag (env : Env) (ac : appCreator) (logger : Logger) (db : DB)
    (traceStore : Writer) (appOpts : AppOptions) (call : NewAppCall)
    (hz : env.cast.ZeroOnNil)
    (habs : appOpts.Get flagMempoolEnableAuth = Value.nil)
    (hrun : (newApp env ac logger db traceStore appOpts).result = Except.ok call) :
    call.options.MempoolEnableAuth = false ∧
    call.options.MempoolAuthAddresses =
      (env.cast.ToStringSlice (appOpts.Get flagMempoolAuthAddresses)).map
        (fun s => (env.AccAddressFromBech32 s).1) ∧
    (env.cast.ToStringSlice (appOpts.Get flagMempoolAuthAddresses) = [] →
      call.options.MempoolAuthAddresses = []) ∧
    (appOpts.Get flagMempoolAuthAddresses = Value.nil →
      call.options.MempoolAuthAddresses = []) := by
  obtain ⟨hP, hL, hS, hA, hG⟩ :=
    newApp_ok_inv env ac logger db traceStore appOpts call hrun
  have hall : ∀ s ∈ env.cast.ToStringSlice (appOpts.Get flagMempoolAuthAddresses),
      (env.AccAddressFromBech32 s).2 = none := by
    intro s hs
    by_contra hne
    exact (accAddressesFromBech32_err_iff _ _).mpr ⟨s, hs, hne⟩ hA
  have hdec := accAddressesFromBech32Loop_all_ok env.AccAddressFromBech32 _ [] hall
  rw [newApp_ok env ac logger db traceStore appOpts hP hL hS hA hG] at hrun
  simp only [Except.ok.injEq] at hrun
  have haddr : call.options.MempoolAuthAddresses =
      (env.cast.ToStringSlice (appOpts.Get flagMempoolAuthAddresses)).map
        (fun s => (env.AccAddressFromBech32 s).1) := by
    rw [← hrun]
    simp [accAddressesFromBech32, hdec]
  refine ⟨?_, haddr, ?_, ?_⟩
  · rw [← hrun]
    simp [habs, Cast.ToBool, hz.toBool]
  · intro hnil
    rw [haddr, hnil]
    rfl
  · intro hnil
    rw [haddr, hnil]
    simp [Cast.ToStringSlice, hz.toStringSlice]

theorem newApp_omitted_auth_flag_witness :
    ∃ call,
      (newApp sampleEnv sampleCreator sampleLogger sampleDB sampleTrace
        addressesOnlyOpts).result = Except.ok call ∧
      call.options.MempoolEnableAuth = false ∧
      call.options.MempoolAuthAddresses =
        [addrA, addrB].map (fun s => (sampleAccAddressFromBech32 s).1) :=
  ⟨_, rfl,
    (newApp_omitted_auth_flag sampleEnv sampleCreator sampleLogger sampleDB sampleTrace
      addressesOnlyOpts _ sampleCast_zeroOnNil rfl rfl).1,
    (newApp_omitted_auth_flag sampleEnv sampleCreator sampleLogger sampleDB sampleTrace
      addressesOnlyOpts _ sampleCast_zeroOnNil rfl rfl).2.1⟩

/-- C5, as stated, fails: a configuration that sets the pruning strategy and the home
directory, leaves `mempool.enable-authentication` out and lists two addresses reaches
the runtime constructor with a disabled flag and a non-empty allow-list. -/
theorem newApp_omitted_auth_flag_nonempty :
    addressesOnlyOpts.Get flagMempoolEnableAuth = Value.nil ∧
    ∃ call,
      (newApp sampleEnv sampleCreator sampleLogger sampleDB sampleTrace
        addressesOnlyOpts).result = Except.ok call ∧
      call.options.MempoolEnableAuth = false ∧
      call.options.MempoolAuthAddresses = [bytesA, bytesB] ∧
      call.options.MempoolAuthAddresses ≠ [] ∧
      BaseAppOption.SetPruning ⟨"default"⟩ ∈ call.baseAppOptions :=
  ⟨rfl, _, rfl, rfl, rfl, by decide, by decide⟩

/-- C6: let two configurations agree on every key but `mempool.enable-authentication`,
in an environment whose home key and gas-price key are other keys and whose pruning
resolution does not read that key.  Then `newApp` makes the same store calls on both,
and either panics with the same value on both or reaches the runtime constructor on
both with the same `MempoolAuthAddresses`; the address decoding gives the same result
on both. -/
theorem newApp_allowlist_ignores_flag (env : Env) (ac : appCreator) (logger : Logger)
    (db : DB) (traceStore : Writer) (a b : AppOptions)
    (hagree : AppOptions.AgreeExcept flagMempoolEnableAuth a b)
    (hhome : env.flags.FlagHome ≠ flagMempoolEnableAuth)
    (hgas : env.flags.FlagMinGasPrices ≠ flagMempoolEnableAuth)
    (hpruning : ∀ x y, AppOptions.AgreeExcept flagMempoolEnableAuth x y →
      env.GetPruningOptionsFromFlags x = env.GetPruningOptionsFromFlags y) :
    ((∃ pv, (newApp env ac logger db traceStore a).result = Except.error pv ∧
        (newApp env ac logger db traceStore b).result = Except.error pv) ∨
      (∃ ca cb, (newApp env ac logger db traceStore a).result = Except.ok ca ∧
        (newApp env ac logger db traceStore b).result = Except.ok cb ∧
        ca.options.MempoolAuthAddresses = cb.options.MempoolAuthAddresses)) ∧
    (newApp env ac logger db traceStore a).calls =
      (newApp env ac logger db traceStore b).calls ∧
    accAddressesFromBech32 env.AccAddressFromBech32
        (env.cast.ToStringSlice (a.Get flagMempoolAuthAddresses)) =
      accAddressesFromBech32 env.AccAddressFromBech32
        (env.cast.ToStringSlice (b.Get flagMempoolAuthAddresses)) := by
  have hkeys : a.Get flagMempoolAuthAddresses = b.Get flagMempoolAuthAddresses :=
    hagree _ (by decide)
  have hh : a.Get env.flags.FlagHome = b.Get env.flags.FlagHome := hagree _ hhome
  have hg : a.Get env.flags.FlagMinGasPrices = b.Get env.flags.FlagMinGasPrices :=
    hagree _ hgas
  have hp : env.GetPruningOptionsFromFlags a = env.GetPruningOptionsFromFlags b :=
    hpruning a b hagree
  refine ⟨?_, ?_, by rw [hkeys]⟩
  · cases hP : (env.GetPruningOptionsFromFlags a).2 with
    | some err =>
      refine Or.inl ⟨PanicValue.err err, ?_, ?_⟩
      · rw [newApp_pruning_err env ac logger db traceStore a err hP]
      · rw [newApp_pruning_err env ac logger db traceStore b err (hp ▸ hP)]
    | none =>
      cases hL : (env.NewLevelDB "metadata"
        (env.Join [env.cast.ToString (a.Get env.flags.FlagHome), "data", "snapshots"])).2
        with
      | some err =>
        refine Or.inl ⟨PanicValue.err err, ?_, ?_⟩
        · rw [newApp_levelDB_err env ac logger db traceStore a err hP hL]
        · rw [newApp_levelDB_err env ac logger db traceStore b err (hp ▸ hP) (hh ▸ hL)]
      | none =>
        cases hS : (env.NewStore
          (env.NewLevelDB "metadata"
            (env.Join
              [env.cast.ToString (a.Get env.flags.FlagHome), "data", "snapshots"])).1
          (env.Join
            [env.cast.ToString (a.Get env.flags.FlagHome), "data", "snapshots"])).2 with
        | some err =>
          refine Or.inl ⟨PanicValue.err err, ?_, ?_⟩
          · rw [newApp_store_err env ac logger db traceStore a err hP hL hS]
          · rw [newApp_store_err env ac logger db traceStore b err (hp ▸ hP) (hh ▸ hL)
              (hh ▸ hS)]
        | none =>
          cases hA : (accAddressesFromBech32 env.AccAddressFromBech32
            (env.cast.ToStringSlice (a.Get flagMempoolAuthAddresses))).2 with
          | some err =>
            refine Or.inl ⟨PanicValue.str
              ("could not get authorized address from config: " ++ err), ?_, ?_⟩
            · rw [newApp_decode_err env ac logger db traceStore a err hP hL hS hA]
            · rw [newApp_decode_err env ac logger db traceStore b err (hp ▸ hP) (hh ▸ hL)
                (hh ▸ hS) (hkeys ▸ hA)]
          | none =>
            cases hG : env.SetMinGasPrices
              (env.cast.ToString (a.Get env.flags.FlagMinGasPrices)) with
            | some v =>
              refine Or.inl ⟨v, ?_, ?_⟩
              · rw [newApp_gasPrices_err env ac logger db traceStore a v hP hL hS hA hG]
              · rw [newApp_gasPrices_err env ac logger db traceStore b v (hp ▸ hP)
                  (hh ▸ hL) (hh ▸ hS) (hkeys ▸ hA) (hg ▸ hG)]
            | none =>
              have ha := newApp_ok env ac logger db traceStore a hP hL hS hA hG
              have hb := newApp_ok env ac logger db traceStore b (hp ▸ hP) (hh ▸ hL)
                (hh ▸ hS) (hkeys ▸ hA) (hg ▸ hG)
              refine Or.inr
                ⟨_, _, congrArg Outcome.result ha, congrArg Outcome.result hb, ?_⟩
              simp only [hkeys]
  · cases hP : (env.GetPruningOptionsFromFlags a).2 with
    | some err =>
      rw [newApp_pruning_err env ac logger db traceStore a err hP,
        newApp_pruning_err env ac logger db traceStore b err (hp ▸ hP)]
    | none =>
      cases hL : (env.NewLevelDB "metadata"
        (env.Join [env.cast.ToString (a.Get env.flags.FlagHome), "data", "snapshots"])).2
        with
      | some err =>
        rw [newApp_levelDB_err env ac logger db traceStore a err hP hL,
          newApp_levelDB_err env ac logger db traceStore b err (hp ▸ hP) (hh ▸ hL), hh]
      | none =>
        cases hS : (env.NewStore
          (env.NewLevelDB "metadata"
            (env.Join
              [env.cast.ToString (a.Get env.flags.FlagHome), "data", "snapshots"])).1
          (env.Join
            [env.cast.ToString (a.Get env.flags.FlagHome), "data", "snapshots"])).2 with
        | some err =>
          rw [newApp_store_err env ac logger db traceStore a err hP hL hS,
            newApp_store_err env ac logger db traceStore b err (hp ▸ hP) (hh ▸ hL) (hh ▸ hS),
            hh]
        | none =>
          cases hA : (accAddressesFromBech32 env.AccAddressFromBech32
            (env.cast.ToStringSlice (a.Get flagMempoolAuthAddresses))).2 with
          | some err =>
            rw [newApp_decode_err env ac logger db traceStore a err hP hL hS hA,
              newApp_decode_err env ac logger db traceStore b err (hp ▸ hP) (hh ▸ hL)
                (hh ▸ hS) (hkeys ▸ hA), hh]
          | none =>
            cases hG : env.SetMinGasPrices
              (env.cast.ToString (a.Get env.flags.FlagMinGasPrices)) with
            | some v =>
              rw [newApp_gasPrices_err env ac logger db traceStore a v hP hL hS hA hG,
                newApp_gasPrices_err env ac logger db traceStore b v (hp ▸ hP) (hh ▸ hL)
                  (hh ▸ hS) (hkeys ▸ hA) (hg ▸ hG), hh]
            | none =>
              rw [newApp_ok env ac logger db traceStore a hP hL hS hA hG,
                newApp_ok env ac logger db traceStore b (hp ▸ hP) (hh ▸ hL) (hh ▸ hS)
                  (hkeys ▸ hA) (hg ▸ hG), hh]

theorem newApp_allowlist_ignores_flag_witness :
    AppOptions.AgreeExcept flagMempoolEnableAuth addressesOnlyOpts addressesAuthOpts ∧
    addressesOnlyOpts.Get flagMempoolEnableAuth ≠ addressesAuthOpts.Get flagMempoolEnableAuth ∧
    (newApp sampleEnv sampleCreator sampleLogger sampleDB sampleTrace addressesOnlyOpts).calls =
      (newApp sampleEnv sampleCreator sampleLogger sampleDB sampleTrace
        addressesAuthOpts).calls ∧
    ∃ ca cb,
      (newApp sampleEnv sampleCreator sampleLogger sampleDB sampleTrace
        addressesOnlyOpts).result = Except.ok ca ∧
      (newApp sampleEnv sampleCreator sampleLogger sampleDB sampleTrace
        addressesAuthOpts).result = Except.ok cb ∧
      ca.options.MempoolAuthAddresses = cb.options.MempoolAuthAddresses := by
  have hagree :
      AppOptions.AgreeExcept flagMempoolEnableAuth addressesOnlyOpts addressesAuthOpts := by
    intro k hk
    simp [addressesOnlyOpts, addressesAuthOpts, hk]
  have h := newApp_allowlist_ignores_flag sampleEnv sampleCreator sampleLogger sampleDB
    sampleTrace addressesOnlyOpts addressesAuthOpts hagree (by decide) (by decide)
    samplePruning_agree
  refine ⟨hagree, by decide, h.2.1, ?_⟩
  rcases h.1 with ⟨pv, ha, _⟩ | hok
  · have hrun :
        (newApp sampleEnv sampleCreator sampleLogger sampleDB sampleTrace
          addressesOnlyOpts).result = Except.ok _ := rfl
    rw [hrun] at ha
    cases ha
  · exact hok

/-- C7, as the code has it: when every key that `newApp` itself looks up is absent and
the coercions send `nil` to zero values, a call of the runtime constructor carries only
zero values: `SkipLoadLatest` false, an empty skip-upgrade map, `InvariantCheckPeriod`
0, `MempoolEnableAuth` false, no authorized address, and the base options `""`, 0, 0,
0, `nil` cache, false, empty, 0, 0 next to the pruning options and the snapshot store.
The constructor is reached whenever pruning resolution, the two store constructors and
`SetMinGasPrices("")` succeed, and a panic comes from one of these four: no coercion
and no address decoding stops the run. -/
theorem newApp_absent_keys_zero (env : Env) (ac : appCreator) (logger : Logger) (db : DB)
    (traceStore : Writer) (appOpts : AppOptions)
    (hz : env.cast.ZeroOnNil) (habs : ∀ k ∈ newAppKeys env, appOpts.Get k = Value.nil) :
    (∀ call, (newApp env ac logger db traceStore appOpts).result = Except.ok call →
      call.options =
        { SkipLoadLatest := false
          SkipUpgradeHeights := []
          InvariantCheckPeriod := 0
          MempoolEnableAuth := false
          MempoolAuthAddresses := [] } ∧
      call.baseAppOptions =
        [ BaseAppOption.SetPruning (env.GetPruningOptionsFromFlags appOpts).1,
          BaseAppOption.SetMinGasPrices "",
          BaseAppOption.SetHaltHeight 0,
          BaseAppOption.SetHaltTime 0,
          BaseAppOption.SetMinRetainBlocks 0,
          BaseAppOption.SetInterBlockCache MultiStorePersistentCache.nil,
          BaseAppOption.SetTrace false,
          BaseAppOption.SetIndexEvents [],
          BaseAppOption.SetSnapshotStore
            (env.NewStore (env.NewLevelDB "metadata" (env.Join ["", "data", "snapshots"])).1
              (env.Join ["", "data", "snapshots"])).1,
          BaseAppOption.SetSnapshotInterval 0,
          BaseAppOption.SetSnapshotKeepRecent 0 ]) ∧
    ((env.GetPruningOptionsFromFlags appOpts).2 = none →
      (env.NewLevelDB "metadata" (env.Join ["", "data", "snapshots"])).2 = none →
      (env.NewStore (env.NewLevelDB "metadata" (env.Join ["", "data", "snapshots"])).1
        (env.Join ["", "data", "snapshots"])).2 = none →
      env.SetMinGasPrices "" = none →
      ∃ call, (newApp env ac logger db traceStore appOpts).result = Except.ok call) ∧
    (∀ pv, (newApp env ac logger db traceStore appOpts).result = Except.error pv →
      (env.GetPruningOptionsFromFlags appOpts).2 ≠ none ∨
      (env.NewLevelDB "metadata" (env.Join ["", "data", "snapshots"])).2 ≠ none ∨
      (env.NewStore (env.NewLevelDB "metadata" (env.Join ["", "data", "snapshots"])).1
        (env.Join ["", "data", "snapshots"])).2 ≠ none ∨
      env.SetMinGasPrices "" ≠ none) := by
  have hget : ∀ k ∈ newAppKeys env, appOpts.Get k = Value.nil := habs
  simp only [newAppKeys, List.forall_mem_cons, List.not_mem_nil, false_implies,
    implies_true, and_true] at hget
  obtain ⟨k1, k2, k3, k4, k5, k6, k7, k8, k9, k10, k11, k12, k13, k14⟩ := hget
  have hhome : env.cast.ToString (appOpts.Get env.flags.FlagHome) = "" := by
    simp [k3, Cast.ToString, hz.toString]
  have hprice : env.cast.ToString (appOpts.Get env.flags.FlagMinGasPrices) = "" := by
    simp [k7, Cast.ToString, hz.toString]
  have hlist : env.cast.ToStringSlice (appOpts.Get flagMempoolAuthAddresses) = [] := by
    simp [k5, Cast.ToStringSlice, hz.toStringSlice]
  have hdec : accAddressesFromBech32 env.AccAddressFromBech32
      (env.cast.ToStringSlice (appOpts.Get flagMempoolAuthAddresses)) = ([], none) := by
    rw [hlist]
    rfl
  refine ⟨?_, ?_, ?_⟩
  · intro call hrun
    obtain ⟨hP, hL, hS, hA, hG⟩ :=
      newApp_ok_inv env ac logger db traceStore appOpts call hrun
    rw [newApp_ok env ac logger db traceStore appOpts hP hL hS hA hG] at hrun
    simp only [Except.ok.injEq] at hrun
    rw [← hrun]
    simp [k1, k2, k3, k4, k5, k6, k7, k8, k9, k10, k11, k12, k13, k14, Cast.ToBool,
      Cast.ToString, Cast.ToUint, Cast.ToUint32, Cast.ToUint64, Cast.ToIntSlice,
      Cast.ToStringSlice, hz.toBool, hz.toString, hz.toUint, hz.toUint32, hz.toUint64,
      hz.toIntSlice, hz.toStringSlice, skipUpgradeHeightsLoop, accAddressesFromBech32,
      accAddressesFromBech32Loop]
  · intro hP hL hS hG
    rw [← hhome] at hL hS
    rw [← hprice] at hG
    exact ⟨_, congrArg Outcome.result
      (newApp_ok env ac logger db traceStore appOpts hP hL hS (by rw [hdec]) hG)⟩
  · intro pv hrun
    rcases newApp_err_inv env ac logger db traceStore appOpts pv hrun with h | h | h | h | h
    · exact Or.inl h
    · exact Or.inr (Or.inl (hhome ▸ h))
    · exact Or.inr (Or.inr (Or.inl (hhome ▸ h)))
    · rw [hdec] at h
      exact absurd rfl h
    · exact Or.inr (Or.inr (Or.inr (hprice ▸ h)))

theorem newApp_absent_keys_zero_witness :
    ∃ call,
      (newApp sampleEnv sampleCreator sampleLogger sampleDB sampleTrace
        pruningOnlyOpts).result = Except.ok call ∧
      call.options =
        { SkipLoadLatest := false
          SkipUpgradeHeights := []
          InvariantCheckPeriod := 0
          MempoolEnableAuth := false
          MempoolAuthAddresses := [] } ∧
      call.baseAppOptions =
        [ BaseAppOption.SetPruning ⟨"default"⟩,
          BaseAppOption.SetMinGasPrices "",
          BaseAppOption.SetHaltHeight 0,
          BaseAppOption.SetHaltTime 0,
          BaseAppOption.SetMinRetainBlocks 0,
          BaseAppOption.SetInterBlockCache MultiStorePersistentCache.nil,
          BaseAppOption.SetTrace false,
          BaseAppOption.SetIndexEvents [],
          BaseAppOption.SetSnapshotStore ⟨"data/snapshots"⟩,
          BaseAppOption.SetSnapshotInterval 0,
          BaseAppOption.SetSnapshotKeepRecent 0 ] := by
  have h := newApp_absent_keys_zero sampleEnv sampleCreator sampleLogger sampleDB sampleTrace
    pruningOnlyOpts sampleCast_zeroOnNil (by decide)
  obtain ⟨call, hcall⟩ := h.2.1 rfl rfl rfl rfl
  exact ⟨call, hcall, (h.1 call hcall).1, (h.1 call hcall).2⟩

/-- C7, as stated, fails: on the configuration in which every key is absent `newApp`
panics in pruning resolution, on the empty strategy name, before any value is passed
on; and the two slice coercions do report an error on `nil`, which `newApp` drops. -/
theorem newApp_absent_config_panics :
    absentOpts.Get = (fun _ => Value.nil) ∧
    (newApp sampleEnv sampleCreator sampleLogger sampleDB sampleTrace absentOpts).result =
      Except.error (PanicValue.err "unknown pruning strategy ") ∧
    (newApp sampleEnv sampleCreator sampleLogger sampleDB sampleTrace absentOpts).calls = [] ∧
    (¬ ∃ call,
      (newApp sampleEnv sampleCreator sampleLogger sampleDB sampleTrace absentOpts).result =
        Except.ok call) ∧
    (sampleEnv.cast.ToIntSliceE Value.nil).2 ≠ none ∧
    (sampleEnv.cast.ToStringSliceE Value.nil).2 ≠ none := by
  have hrun :
      (newApp sampleEnv sampleCreator sampleLogger sampleDB sampleTrace absentOpts).result =
        Except.error (PanicValue.err "unknown pruning strategy ") := rfl
  refine ⟨rfl, hrun, rfl, ?_, by decide, by decide⟩
  rintro ⟨call, hcall⟩
  rw [hrun] at hcall
  cases hcall

/-- C10, as the code has it: `newApp` panics only when pruning resolution, one of the
two store constructors, the decoding of an address, or the parsing of the minimum gas
price in `SetMinGasPrices` fails.  When it reaches the runtime constructor and the
checked coercions return zero values next to an error, then for each key whose value
does not coerce the resolved value is the zero value of the target type, which is also
what the `nil` value of an absent key resolves to. -/
theorem newApp_coercion_errors_dropped (env : Env) (ac : appCreator) (logger : Logger)
    (db : DB) (traceStore : Writer) (appOpts : AppOptions)
    (hz : env.cast.ZeroOnError) (hn : env.cast.ZeroOnNil) :
    (∀ pv, (newApp env ac logger db traceStore appOpts).result = Except.error pv →
      (env.GetPruningOptionsFromFlags appOpts).2 ≠ none ∨
      (env.NewLevelDB "metadata"
        (env.Join [env.cast.ToString (appOpts.Get env.flags.FlagHome), "data", "snapshots"])).2
          ≠ none ∨
      (env.NewStore
        (env.NewLevelDB "metadata"
          (env.Join
            [env.cast.ToString (appOpts.Get env.flags.FlagHome), "data", "snapshots"])).1
        (env.Join [env.cast.ToString (appOpts.Get env.flags.FlagHome), "data", "snapshots"])).2
          ≠ none ∨
      (∃ s ∈ env.cast.ToStringSlice (appOpts.Get flagMempoolAuthAddresses),
        (env.AccAddressFromBech32 s).2 ≠ none) ∨
      env.SetMinGasPrices (env.cast.ToString (appOpts.Get env.flags.FlagMinGasPrices)) ≠
        none) ∧
    ((env.GetPruningOptionsFromFlags appOpts).2 = none →
      (env.NewLevelDB "metadata"
        (env.Join [env.cast.ToString (appOpts.Get env.flags.FlagHome), "data", "snapshots"])).2
          = none →
      (env.NewStore
        (env.NewLevelDB "metadata"
          (env.Join
            [env.cast.ToString (appOpts.Get env.flags.FlagHome), "data", "snapshots"])).1
        (env.Join [env.cast.ToString (appOpts.Get env.flags.FlagHome), "data", "snapshots"])).2
          = none →
      (∀ s ∈ env.cast.ToStringSlice (appOpts.Get flagMempoolAuthAddresses),
        (env.AccAddressFromBech32 s).2 = none) →
      env.SetMinGasPrices (env.cast.ToString (appOpts.Get env.flags.FlagMinGasPrices)) =
        none →
      ∃ call, (newApp env ac logger db traceStore appOpts).result = Except.ok call) ∧
    (∀ call, (newApp env ac logger db traceStore appOpts).result = Except.ok call →
      ((env.cast.ToBoolE (appOpts.Get env.flags.FlagInterBlockCache)).2 ≠ none →
        BaseAppOption.SetInterBlockCache MultiStorePersistentCache.nil ∈ call.baseAppOptions ∧
        env.cast.ToBool Value.nil = false) ∧
      ((env.cast.ToIntSliceE (appOpts.Get env.flags.FlagUnsafeSkipUpgrades)).2 ≠ none →
        call.options.SkipUpgradeHeights = [] ∧ env.cast.ToIntSlice Value.nil = []) ∧
      ((env.cast.ToStringE (appOpts.Get env.flags.FlagHome)).2 ≠ none →
        (newApp env ac logger db traceStore appOpts).calls =
          [Call.NewLevelDB "metadata" (env.Join ["", "data", "snapshots"]),
            Call.NewStore (env.NewLevelDB "metadata" (env.Join ["", "data", "snapshots"])).1
              (env.Join ["", "data", "snapshots"])] ∧
        env.cast.ToString Value.nil = "") ∧
      ((env.cast.ToBoolE (appOpts.Get flagMempoolEnableAuth)).2 ≠ none →
        call.options.MempoolEnableAuth = false ∧ env.cast.ToBool Value.nil = false) ∧
      ((env.cast.ToStringSliceE (appOpts.Get flagMempoolAuthAddresses)).2 ≠ none →
        call.options.MempoolAuthAddresses = [] ∧ env.cast.ToStringSlice Value.nil = []) ∧
      ((env.cast.ToUintE (appOpts.Get env.flags.FlagInvCheckPeriod)).2 ≠ none →
        call.options.InvariantCheckPeriod = 0 ∧ env.cast.ToUint Value.nil = 0) ∧
      ((env.cast.ToStringE (appOpts.Get env.flags.FlagMinGasPrices)).2 ≠ none →
        BaseAppOption.SetMinGasPrices "" ∈ call.baseAppOptions ∧
        env.cast.ToString Value.nil = "") ∧
      ((env.cast.ToUint64E (appOpts.Get env.flags.FlagHaltHeight)).2 ≠ none →
        BaseAppOption.SetHaltHeight 0 ∈ call.baseAppOptions ∧
        env.cast.ToUint64 Value.nil = 0) ∧
      ((env.cast.ToUint64E (appOpts.Get env.flags.FlagHaltTime)).2 ≠ none →
        BaseAppOption.SetHaltTime 0 ∈ call.baseAppOptions ∧
        env.cast.ToUint64 Value.nil = 0) ∧
      ((env.cast.ToUint64E (appOpts.Get env.flags.FlagMinRetainBlocks)).2 ≠ none →
        BaseAppOption.SetMinRetainBlocks 0 ∈ call.baseAppOptions ∧
        env.cast.ToUint64 Value.nil = 0) ∧
      ((env.cast.ToBoolE (appOpts.Get env.flags.FlagTrace)).2 ≠ none →
        BaseAppOption.SetTrace false ∈ call.baseAppOptions ∧
        env.cast.ToBool Value.nil = false) ∧
      ((env.cast.ToStringSliceE (appOpts.Get env.flags.FlagIndexEvents)).2 ≠ none →
        BaseAppOption.SetIndexEvents [] ∈ call.baseAppOptions ∧
        env.cast.ToStringSlice Value.nil = []) ∧
      ((env.cast.ToUint64E (appOpts.Get env.flags.FlagStateSyncSnapshotInterval)).2 ≠ none →
        BaseAppOption.SetSnapshotInterval 0 ∈ call.baseAppOptions ∧
        env.cast.ToUint64 Value.nil = 0) ∧
      ((env.cast.ToUint32E (appOpts.Get env.flags.FlagStateSyncSnapshotKeepRecent)).2 ≠ none →
        BaseAppOption.SetSnapshotKeepRecent 0 ∈ call.baseAppOptions ∧
        env.cast.ToUint32 Value.nil = 0)) := by
  refine ⟨?_, ?_, ?_⟩
  · intro pv hrun
    rcases newApp_err_inv env ac logger db traceStore appOpts pv hrun with h | h | h | h | h
    · exact Or.inl h
    · exact Or.inr (Or.inl h)
    · exact Or.inr (Or.inr (Or.inl h))
    · exact Or.inr (Or.inr (Or.inr (Or.inl ((accAddressesFromBech32_err_iff _ _).mp h))))
    · exact Or.inr (Or.inr (Or.inr (Or.inr h)))
  · intro hP hL hS hall hG
    have hA : (accAddressesFromBech32 env.AccAddressFromBech32
        (env.cast.ToStringSlice (appOpts.Get flagMempoolAuthAddresses))).2 = none := by
      rw [accAddressesFromBech32, accAddressesFromBech32Loop_all_ok _ _ [] hall]
    exact ⟨_, congrArg Outcome.result
      (newApp_ok env ac logger db traceStore appOpts hP hL hS hA hG)⟩
  · intro call hrun
    obtain ⟨hP, hL, hS, hA, hG⟩ :=
      newApp_ok_inv env ac logger db traceStore appOpts call hrun
    have hfull := newApp_ok env ac logger db traceStore appOpts hP hL hS hA hG
    rw [hfull] at hrun
    simp only [Except.ok.injEq] at hrun
    rw [← hrun]
    refine ⟨?_, ?_, ?_, ?_, ?_, ?_, ?_, ?_, ?_, ?_, ?_, ?_, ?_, ?_⟩
    · intro h
      simp [Cast.ToBool, hz.toBool _ h, hn.toBool]
    · intro h
      simp [Cast.ToIntSlice, hz.toIntSlice _ h, hn.toIntSlice, skipUpgradeHeightsLoop]
    · intro h
      rw [hfull]
      simp [Cast.ToString, hz.toString _ h, hn.toString]
    · intro h
      simp [Cast.ToBool, hz.toBool _ h, hn.toBool]
    · intro h
      simp [Cast.ToStringSlice, hz.toStringSlice _ h, hn.toStringSlice,
        accAddressesFromBech32, accAddressesFromBech32Loop]
    · intro h
      simp [Cast.ToUint, hz.toUint _ h, hn.toUint]
    · intro h
      simp [Cast.ToString, hz.toString _ h, hn.toString]
    · intro h
      simp [Cast.ToUint64, hz.toUint64 _ h, hn.toUint64]
    · intro h
      simp [Cast.ToUint64, hz.toUint64 _ h, hn.toUint64]
    · intro h
      simp [Cast.ToUint64, hz.toUint64 _ h, hn.toUint64]
    · intro h
      simp [Cast.ToBool, hz.toBool _ h, hn.toBool]
    · intro h
      simp [Cast.ToStringSlice, hz.toStringSlice _ h, hn.toStringSlice]
    · intro h
      simp [Cast.ToUint64, hz.toUint64 _ h, hn.toUint64]
    · intro h
      simp [Cast.ToUint32, hz.toUint32 _ h, hn.toUint32]

theorem newApp_coercion_errors_dropped_witness :
    (∃ call,
      (newApp sampleEnv sampleCreator sampleLogger sampleDB sampleTrace garbledOpts).result =
        Except.ok call ∧
      call.options.SkipUpgradeHeights = [] ∧
      call.options.MempoolEnableAuth = false ∧
      call.options.InvariantCheckPeriod = 0 ∧
      call.options.MempoolAuthAddresses = [bytesB]) ∧
    ((sampleEnv.GetPruningOptionsFromFlags badGasPriceOpts).2 ≠ none ∨
      (sampleEnv.NewLevelDB "metadata"
        (sampleEnv.Join
          [sampleEnv.cast.ToString (badGasPriceOpts.Get sampleEnv.flags.FlagHome), "data",
            "snapshots"])).2 ≠ none ∨
      (sampleEnv.NewStore
        (sampleEnv.NewLevelDB "metadata"
          (sampleEnv.Join
            [sampleEnv.cast.ToString (badGasPriceOpts.Get sampleEnv.flags.FlagHome), "data",
              "snapshots"])).1
        (sampleEnv.Join
          [sampleEnv.cast.ToString (badGasPriceOpts.Get sampleEnv.flags.FlagHome), "data",
            "snapshots"])).2 ≠ none ∨
      (∃ s ∈ sampleEnv.cast.ToStringSlice (badGasPriceOpts.Get flagMempoolAuthAddresses),
        (sampleEnv.AccAddressFromBech32 s).2 ≠ none) ∨
      sampleEnv.SetMinGasPrices
        (sampleEnv.cast.ToString (badGasPriceOpts.Get sampleEnv.flags.FlagMinGasPrices)) ≠
          none) := by
  have h := newApp_coercion_errors_dropped sampleEnv sampleCreator sampleLogger sampleDB
    sampleTrace garbledOpts sampleCast_zeroOnError sampleCast_zeroOnNil
  obtain ⟨call, hcall⟩ := h.2.1 rfl rfl rfl (by decide) rfl
  have hf := h.2.2 call hcall
  have hcall2 := hcall
  have hval :
      (newApp sampleEnv sampleCreator sampleLogger sampleDB sampleTrace garbledOpts).result =
        Except.ok _ := rfl
  rw [hval] at hcall2
  simp only [Except.ok.injEq] at hcall2
  refine ⟨⟨call, hcall, (hf.2.1 (by decide)).1, (hf.2.2.2.1 (by decide)).1,
      (hf.2.2.2.2.2.1 (by decide)).1, ?_⟩,
    (newApp_coercion_errors_dropped sampleEnv sampleCreator sampleLogger sampleDB
      sampleTrace badGasPriceOpts sampleCast_zeroOnError sampleCast_zeroOnNil).1 _ rfl⟩
  rw [← hcall2]
  rfl

/-- C10, as stated, fails: on a configuration whose pruning strategy, home directory
and address list resolve, a minimum gas price that is no coin expression makes `newApp`
panic in `SetMinGasPrices`, after both store calls and without a call of the runtime
constructor. -/
theorem newApp_bad_gas_price_panics :
    (sampleEnv.GetPruningOptionsFromFlags badGasPriceOpts).2 = none ∧
    (newApp sampleEnv sampleCreator sampleLogger sampleDB sampleTrace badGasPriceOpts).calls =
      [Call.NewLevelDB "metadata" "/root/.kava/data/snapshots",
        Call.NewStore ⟨"/root/.kava/data/snapshots/metadata.db"⟩
          "/root/.kava/data/snapshots"] ∧
    sampleEnv.cast.ToStringSlice (badGasPriceOpts.Get flagMempoolAuthAddresses) = [] ∧
    (sampleEnv.cast.ToStringE (badGasPriceOpts.Get sampleEnv.flags.FlagMinGasPrices)) =
      ("not a coin", none) ∧
    (newApp sampleEnv sampleCreator sampleLogger sampleDB sampleTrace badGasPriceOpts).result =
      Except.error
        (PanicValue.str
          "invalid minimum gas prices: invalid decimal coin expression: not a coin") ∧
    ¬ ∃ call,
      (newApp sampleEnv sampleCreator sampleLogger sampleDB sampleTrace
        badGasPriceOpts).result = Except.ok call := by
  have hrun :
      (newApp sampleEnv sampleCreator sampleLogger sampleDB sampleTrace
        badGasPriceOpts).result =
        Except.error
          (PanicValue.str
            "invalid minimum gas prices: invalid decimal coin expression: not a coin") := rfl
  refine ⟨rfl, rfl, rfl, rfl, hrun, ?_⟩
  rintro ⟨call, hcall⟩
  rw [hrun] at hcall
  cases hcall

end Kava
